import Mathlib

/-!
Shallow embedding of the Sleeper-Sheets repository (src/main.py and
src/matchups.py): the season aggregator (class SleeperSheets), the
victory-margin pipeline (class MarginCalculator), the highest-scorer
pipeline (class HighestScorerProcessor) and the processed-week ledger.

Modelling conventions:
* Remote fetches are Option-valued inputs (none = transport failure or a
  non-200 response, which the code turns into an empty/None result or a
  caught exception).
* Fantasy point values are modelled as exact integers; only comparison,
  subtraction, absolute value and summation are performed on them.
* A Python dict lookup (last write wins) is `getLast`; a dict built by a
  comprehension (first-occurrence key order, last value wins) is `pyDict`.
* The in-memory processed-week set keyed by the string "year,week" is
  modelled as a list of (year, week) pairs with list membership; the
  string/file layer of the ledger is modelled separately
  (`loadProcessedWeeks`, `weekKeyStr`, `saveProcessedWeek`).
-/

/-- Python `dict.get`: the value of the last binding of key `k`, if any. -/
def getLast {α β : Type} [DecidableEq α] (l : List (α × β)) (k : α) : Option β :=
  l.foldl (fun acc p => if p.1 = k then some p.2 else acc) none

/-- Python `dict.get(k, d)` with a default. -/
def getLastD {α β : Type} [DecidableEq α] (l : List (α × β)) (k : α) (d : β) : β :=
  (getLast l k).getD d

/-- One insertion into a Python dict: overwrite in place if the key is
present, otherwise append at the end (insertion order is preserved). -/
def pyDictInsert {α β : Type} [DecidableEq α] (l : List (α × β)) (k : α) (v : β) :
    List (α × β) :=
  if l.any fun p => decide (p.1 = k) then
    l.map fun p => if p.1 = k then (k, v) else p
  else l ++ [(k, v)]

/-- A Python dict built from a list of key-value pairs (as a dict
comprehension does): first-occurrence key order, last value wins. -/
def pyDict {α β : Type} [DecidableEq α] (l : List (α × β)) : List (α × β) :=
  l.foldl (fun acc p => pyDictInsert acc p.1 p.2) []

/-- A league participant as returned by `GET /league/{id}/users`
(only the fields the code reads). -/
structure SleeperUser where
  user_id : String
  display_name : String
deriving Repr, DecidableEq

/-- A roster as returned by `GET /league/{id}/rosters`; `owner_id` is
optional because the code reads it with `roster.get('owner_id', ...)`. -/
structure Roster where
  roster_id : Nat
  owner_id : Option String
deriving Repr, DecidableEq

/-- One team's result for one week as returned by
`GET /league/{id}/matchups/{week}` (only the fields the code reads). -/
structure Matchup where
  roster_id : Nat
  matchup_id : Nat
  points : Int
  starters : List String
  starters_points : List Int
deriving Repr, DecidableEq

/-- NFL player metadata from the global player directory. -/
structure Player where
  first_name : String
  last_name : String
deriving Repr, DecidableEq

/-- One user's full season record (one row of the season DataFrame built
by `SleeperSheets.process_season`). -/
structure SeasonRow where
  user_id : String
  display_name : String
  weeks : List Int
  total : Int
deriving Repr, DecidableEq

/-- Resolution of a roster id to an owning user id via the
`roster_to_user` dict of `SleeperSheets.process_season`
(`roster_to_user.get(roster_id)`); a missing roster or a roster whose
`owner_id` is None both yield none. -/
def resolveOwner (rosters : List Roster) (rid : Nat) : Option String :=
  match getLast (rosters.map fun r => (r.roster_id, r.owner_id)) rid with
  | some (some uid) => some uid
  | _ => none

/-- The value of column "Week w" for user `uid` after folding one week's
matchups in `SleeperSheets.process_season`: the points of the last
matchup whose roster resolves to `uid` (the resolved id must be truthy
and a key of `user_data`), defaulting to 0. -/
def weekValue (rosters : List Roster) (userKeys : List String) (ms : List Matchup)
    (uid : String) : Int :=
  ms.foldl (fun acc m =>
    match resolveOwner rosters m.roster_id with
    | some v => if v ≠ "" ∧ v ∈ userKeys ∧ v = uid then m.points else acc
    | none => acc) 0

/-- The 18 week numbers of a season, as `range(1, 19)`. -/
def seasonWeeks : List Nat := List.range' 1 18

/-- One row of the season table, for one `user_data` entry: the 18 week
columns (default 0) and the season total accumulated in week order. -/
def seasonRowOf (rosters : List Roster) (userKeys : List String)
    (fetchMatchups : Nat → Option (List Matchup)) (kv : String × String) : SeasonRow :=
  let wvals := seasonWeeks.map fun w =>
    weekValue rosters userKeys ((fetchMatchups w).getD []) kv.1
  { user_id := kv.1, display_name := kv.2, weeks := wvals, total := wvals.sum }

/-- The unfiltered season table of `SleeperSheets.process_season`: one row
per `user_data` key. -/
def seasonRowsRaw (users : List SleeperUser) (rosters : List Roster)
    (fetchMatchups : Nat → Option (List Matchup)) : List SeasonRow :=
  let dict := pyDict (users.map fun u => (u.user_id, u.display_name))
  dict.map (seasonRowOf rosters (dict.map Prod.fst) fetchMatchups)

/-- The number of week columns of a season row that are exactly zero
(`df[week_columns].eq(0).sum(axis=1)`). -/
def zeroWeeks (r : SeasonRow) : Nat :=
  r.weeks.countP fun p => decide (p = 0)

/-- Model of `SleeperSheets.filter_rows`: keep the rows with at most 5 zero-valued
week columns. -/
def filter_rows (rows : List SeasonRow) : List SeasonRow :=
  rows.filter fun r => decide (zeroWeeks r ≤ 5)

/-- Model of `SleeperSheets.process_season`: empty result when either users or
rosters are missing, the inactivity filter applied only when the season
year differs from the current calendar year. -/
def processSeason (users : List SleeperUser) (rosters : List Roster)
    (fetchMatchups : Nat → Option (List Matchup)) (year currentYear : String) :
    List SeasonRow :=
  if users.isEmpty ∨ rosters.isEmpty then []
  else
    let rows := seasonRowsRaw users rosters fetchMatchups
    if year ≠ currentYear then filter_rows rows else rows

/-- One margin-of-victory record as built by
`MarginCalculator.process_league` (one dict of the `margins` list). -/
structure MarginEntry where
  year : Nat
  week : Nat
  winner : String
  loser : String
  winner_points : Int
  loser_points : Int
  margin : Int
deriving Repr, DecidableEq

/-- The `matchup_dict` of `MarginCalculator.process_league`: matchups
grouped by `matchup_id`, groups in first-occurrence order, members of a
group in encounter order. -/
def groupByMatchupId (ms : List Matchup) : List (Nat × List Matchup) :=
  ms.foldl (fun acc m =>
    if acc.any fun g => decide (g.1 = m.matchup_id) then
      acc.map fun g => if g.1 = m.matchup_id then (g.1, g.2 ++ [m]) else g
    else acc ++ [(m.matchup_id, [m])]) []

/-- Owner display name of a roster in `MarginCalculator.process_league`:
`user_mapping.get(roster_mapping.get(roster_id, 'Unknown'), 'Unknown')`. -/
def marginOwnerName (um : List (String × String)) (rm : List (Nat × String))
    (rid : Nat) : String :=
  getLastD um (getLastD rm rid "Unknown") "Unknown"

/-- The margin record of one valid two-sided pairing: higher-scoring side
wins, ties go to the first-listed side (`points1 >= points2`),
margin = |points1 - points2|. -/
def pairEntry (um : List (String × String)) (rm : List (Nat × String))
    (year week : Nat) (t1 t2 : Matchup) : MarginEntry :=
  let p1 := t1.points
  let p2 := t2.points
  let n1 := marginOwnerName um rm t1.roster_id
  let n2 := marginOwnerName um rm t2.roster_id
  if p1 ≥ p2 then
    { year := year, week := week, winner := n1, loser := n2,
      winner_points := p1, loser_points := p2, margin := |p1 - p2| }
  else
    { year := year, week := week, winner := n2, loser := n1,
      winner_points := p2, loser_points := p1, margin := |p1 - p2| }

/-- The `margins` list of one week of `MarginCalculator.process_league`:
walk the groups in order, discard any group whose size is not 2, and
abort (none) at the first pairing whose winner and loser points are both
zero (the week's partial list is then discarded by the week loop). -/
def marginsOfGroups (um : List (String × String)) (rm : List (Nat × String))
    (year week : Nat) : List (Nat × List Matchup) → Option (List MarginEntry)
  | [] => some []
  | g :: rest =>
    match g.2 with
    | [t1, t2] =>
      let e := pairEntry um rm year week t1 t2
      if e.winner_points = 0 ∧ e.loser_points = 0 then none
      else (marginsOfGroups um rm year week rest).map fun l => e :: l
    | _ => marginsOfGroups um rm year week rest

/-- Python `max(margins, key=margin)`: the first entry with maximal
margin (later entries replace only on strictly greater key). -/
def maxByMargin : List MarginEntry → Option MarginEntry
  | [] => none
  | e :: rest => some (rest.foldl (fun best x => if x.margin > best.margin then x else best) e)

/-- Python `min(margins, key=margin)`: the first entry with minimal
margin (later entries replace only on strictly smaller key). -/
def minByMargin : List MarginEntry → Option MarginEntry
  | [] => none
  | e :: rest => some (rest.foldl (fun best x => if x.margin < best.margin then x else best) e)

/-- The processed-week ledger's in-memory set: the (year, week) pairs
whose string keys "year,week" are in `self.processed_weeks`. -/
abbrev WeekLedger := List (Nat × Nat)

/-- The mutable state threaded through `MarginCalculator.run`: the
processed-weeks set and the two accumulating margin lists. -/
structure RunAcc where
  processedWeeks : WeekLedger
  largest : List MarginEntry
  smallest : List MarginEntry
deriving Repr, DecidableEq

/-- The state-independent outcome of examining one week's matchups in
`MarginCalculator.process_league`. -/
inductive WeekResult where
  | skip
  | stop
  | record (lg sm : MarginEntry)
deriving Repr, DecidableEq

/-- Examination of one week's fetched matchups: a failed fetch or an
empty list is skipped (`if not matchups: continue`); a pairing with both
sides at zero stops the league; otherwise a non-empty margins list
reduces to its first maximal and first minimal entries. -/
def weekOutcome (um : List (String × String)) (rm : List (Nat × String))
    (fetch : Nat → Option (List Matchup)) (year week : Nat) : WeekResult :=
  match fetch week with
  | none => .skip
  | some ms =>
    if ms.isEmpty then .skip
    else
      match marginsOfGroups um rm year week (groupByMatchupId ms) with
      | none => .stop
      | some margins =>
        match maxByMargin margins, minByMargin margins with
        | some lg, some sm => .record lg sm
        | _, _ => .skip

/-- One iteration of the week loop of `MarginCalculator.process_league`,
on the accumulator and the `stop_processing` flag: a stopped league does
nothing, an already-processed week is skipped unless `process_all_data`
is set, a recorded week appends one largest and one smallest entry and
is marked processed, and a stopping week only raises the flag (it is NOT
marked processed). -/
def processLeagueWeek (processAll : Bool) (um : List (String × String))
    (rm : List (Nat × String)) (fetch : Nat → Option (List Matchup)) (year : Nat)
    (acc : RunAcc × Bool) (week : Nat) : RunAcc × Bool :=
  if acc.2 then acc
  else if processAll = false ∧ (year, week) ∈ acc.1.processedWeeks then acc
  else
    match weekOutcome um rm fetch year week with
    | .skip => acc
    | .stop => (acc.1, true)
    | .record lg sm =>
      ({ processedWeeks := acc.1.processedWeeks ++ [(year, week)],
         largest := acc.1.largest ++ [lg],
         smallest := acc.1.smallest ++ [sm] }, acc.2)

/-- Model of `MarginCalculator.process_league`: skip the league when either
mapping is missing, otherwise run weeks 1..18 with the stop flag. -/
def processLeague (processAll : Bool) (um : List (String × String))
    (rm : List (Nat × String)) (fetch : Nat → Option (List Matchup)) (year : Nat)
    (st : RunAcc) : RunAcc :=
  if um.isEmpty ∨ rm.isEmpty then st
  else (seasonWeeks.foldl (processLeagueWeek processAll um rm fetch year) (st, false)).1

/-- One configured league of the margin and high-scorer pipelines: the
user and roster mappings it fetches and its per-week matchup fetch. -/
structure MarginLeague where
  um : List (String × String)
  rm : List (Nat × String)
  fetch : Nat → Option (List Matchup)

/-- One entry of the `league_ids` loop of `MarginCalculator.run`:
an empty league id (none) is skipped. -/
def leagueStep (processAll : Bool) (st : RunAcc) (entry : Nat × Option MarginLeague) :
    RunAcc :=
  match entry.2 with
  | none => st
  | some lg => processLeague processAll lg.um lg.rm lg.fetch entry.1 st

/-- The sort key order of `MarginCalculator.run`: (Year, Week)
lexicographically ascending. -/
def marginLE (a b : MarginEntry) : Prop :=
  a.year < b.year ∨ (a.year = b.year ∧ a.week ≤ b.week)

instance : DecidableRel marginLE := fun a b => by
  unfold marginLE; infer_instance

instance : IsTotal MarginEntry marginLE :=
  ⟨fun a b => by unfold marginLE; omega⟩

instance : IsTrans MarginEntry marginLE :=
  ⟨fun a b c hab hbc => by unfold marginLE at *; omega⟩

/-- Python's stable `list.sort(key=(Year, Week))`; a stable sort by a
total preorder is unique, so insertion sort models it exactly. -/
def sortMargins (l : List MarginEntry) : List MarginEntry :=
  List.insertionSort marginLE l

/-- The (Year, Week) key of an uploaded margin row. -/
def entryKey (e : MarginEntry) : Nat × Nat := (e.year, e.week)

/-- Model of `MarginCalculator.upload_results` on the destination's data rows:
full clear-and-rewrite when `process_all_data` is set, otherwise append
exactly the rows whose (Year, Week) key is absent from the destination's
current contents. -/
def upload_results (processAll : Bool) (sheet : List MarginEntry)
    (data : List MarginEntry) : List MarginEntry :=
  if processAll then data
  else sheet ++ data.filter fun e => decide (entryKey e ∉ sheet.map entryKey)

/-- The two margin destination tabs; none means the tab does not exist. -/
structure SheetsState where
  largestSheet : Option (List MarginEntry)
  smallestSheet : Option (List MarginEntry)
deriving Repr, DecidableEq

/-- The `process_all_data` flag of `MarginCalculator.__init__`: set when
either margin destination tab does not exist at the start of the run. -/
def marginProcessAll (sheets : SheetsState) : Bool :=
  !(sheets.largestSheet.isSome && sheets.smallestSheet.isSome)

/-- The league-processing phase of `MarginCalculator.run`: every
configured league in order, starting from the loaded ledger and empty
accumulating lists. -/
def marginFinal (cfg : List (Nat × Option MarginLeague)) (processed : WeekLedger)
    (sheets : SheetsState) : RunAcc :=
  cfg.foldl (leagueStep (marginProcessAll sheets))
    { processedWeeks := processed, largest := [], smallest := [] }

/-- Model of `MarginCalculator.run` (with `__init__`'s `process_all_data` flag):
process every configured league, then sort each accumulated list by
(Year, Week) and publish it (a list left empty publishes nothing and
creates no tab). -/
def marginRun (cfg : List (Nat × Option MarginLeague)) (processed : WeekLedger)
    (sheets : SheetsState) : WeekLedger × SheetsState :=
  let processAll := marginProcessAll sheets
  let final := marginFinal cfg processed sheets
  let sheets1 :=
    if final.largest.isEmpty then sheets
    else
      let newL := upload_results processAll (sheets.largestSheet.getD [])
        (sortMargins final.largest)
      { sheets with largestSheet := some newL }
  let sheets2 :=
    if final.smallest.isEmpty then sheets1
    else
      let newS := upload_results processAll (sheets1.smallestSheet.getD [])
        (sortMargins final.smallest)
      { sheets1 with smallestSheet := some newS }
  (final.processedWeeks, sheets2)

/-- Python `str.strip()` on the character list: drop leading and trailing
whitespace. -/
def stripChars (l : List Char) : List Char :=
  ((l.dropWhile Char.isWhitespace).reverse.dropWhile Char.isWhitespace).reverse

/-- Python `str.strip()`. -/
def pyStrip (s : String) : String := ⟨stripChars s.data⟩

/-- The string key `f"{year},{week}"` used by `is_week_processed`,
`save_processed_week` and the ledger file. -/
def weekKeyStr (year : String) (week : Nat) : String :=
  year ++ "," ++ toString week

/-- Model of `load_processed_weeks` / `read_processed_weeks`: strip each line of
the ledger file and collect the non-empty results (the Python set is
modelled as a list queried by membership). -/
def loadProcessedWeeks (fileLines : List String) : List String :=
  fileLines.foldl (fun acc line =>
    if pyStrip line ≠ "" then acc ++ [pyStrip line] else acc) []

/-- Model of `save_processed_week`: append one `year,week` line to the file and
add the key to the in-memory set. -/
def saveProcessedWeek (fileLines memSet : List String) (year : String) (week : Nat) :
    List String × List String :=
  (fileLines ++ [weekKeyStr year week], memSet ++ [weekKeyStr year week])

/-- Model of `is_week_processed` on the in-memory set. -/
def isWeekProcessed (memSet : List String) (year : String) (week : Nat) : Prop :=
  weekKeyStr year week ∈ memSet

instance (memSet : List String) (year : String) (week : Nat) :
    Decidable (isWeekProcessed memSet year week) := by
  unfold isWeekProcessed; infer_instance

/-- The scorer record tracked by `process_week` of
`HighestScorerProcessor` (and of src/matchups.py). -/
structure HSRecord where
  player_id : String
  points : Int
  user_id : String
  display_name : String
  player_name : String
deriving Repr, DecidableEq

/-- The full name of a player directory entry:
`f"{first_name} {last_name}".strip()`. -/
def playerFullName (p : Player) : String :=
  pyStrip (p.first_name ++ " " ++ p.last_name)

/-- A matchup whose index-aligned starter evaluation is out of bounds:
the `starters` list is longer than `starters_points`, so building
`starters_with_points` raises IndexError. -/
def starterMisaligned (m : Matchup) : Bool :=
  m.starters_points.length < m.starters.length

/-- The scorer record built when a starter takes the running maximum. -/
def mkHSRecord (rm : List (Nat × String)) (um : List (String × String))
    (pm : List (String × Player)) (rosterId : Nat) (pid : String) (pts : Int) :
    HSRecord :=
  let uid := getLastD rm rosterId "Unknown"
  let dname := getLastD um uid "Unknown"
  let pname := match getLast pm pid with
    | some p => playerFullName p
    | none => "Unknown Player"
  { player_id := pid, points := pts, user_id := uid, display_name := dname,
    player_name := pname }

/-- Scanning the starters of one aligned matchup: replace the running
best only on strictly greater points (`starter['points'] > highest_points`);
an unset best (`float('-inf')`) is beaten by any starter. -/
def hsScanStarters (rm : List (Nat × String)) (um : List (String × String))
    (pm : List (String × Player)) (rosterId : Nat) (pairs : List (String × Int))
    (best : Option (Int × HSRecord)) : Option (Int × HSRecord) :=
  pairs.foldl (fun b pr =>
    match b with
    | none => some (pr.2, mkHSRecord rm um pm rosterId pr.1 pr.2)
    | some (hp, r) =>
      if pr.2 > hp then some (pr.2, mkHSRecord rm um pm rosterId pr.1 pr.2)
      else some (hp, r)) best

/-- The matchup loop of `process_week` in `HighestScorerProcessor`: a
misaligned matchup raises IndexError, which the surrounding
`except Exception` handler catches, ending the loop with the best
accumulated so far; aligned matchups pair each starter with its points
by index. -/
def hsLoop (rm : List (Nat × String)) (um : List (String × String))
    (pm : List (String × Player)) : List Matchup → Option (Int × HSRecord) →
    Option (Int × HSRecord)
  | [], best => best
  | m :: rest, best =>
    if starterMisaligned m then best
    else hsLoop rm um pm rest
      (hsScanStarters rm um pm m.roster_id (m.starters.zip m.starters_points) best)

/-- Model of `HighestScorerProcessor.process_week`.  All four fetches happen
inside the `try` block before `highest_points` is assigned, so a failed
fetch (and a roster without `owner_id`, read unguarded as
`roster['owner_id']`) is caught there and then `if highest_points <= 0`
raises an uncaught UnboundLocalError.  Otherwise the week returns the
accumulated best scorer, or none when its points are <= 0. -/
def hsProcessWeek (matchups : Option (List Matchup)) (rosters : Option (List Roster))
    (users : Option (List SleeperUser)) (players : Option (List (String × Player))) :
    Except String (Option HSRecord) :=
  match matchups, rosters, users, players with
  | some ms, some rs, some us, some ps =>
    if rs.any fun r => r.owner_id.isNone then .error "UnboundLocalError"
    else
      let um := us.map fun u => (u.user_id, u.display_name)
      let rm := rs.map fun r => (r.roster_id, r.owner_id.getD "")
      match hsLoop rm um ps ms none with
      | none => .ok none
      | some (hp, r) => if hp ≤ 0 then .ok none else .ok (some r)
  | _, _, _, _ => .error "UnboundLocalError"

/-- One configured league of the high-scorer pipeline: `process_week`
re-fetches matchups, rosters, users and the player directory every
week. -/
structure HSLeague where
  fetchM : Nat → Option (List Matchup)
  fetchR : Nat → Option (List Roster)
  fetchU : Nat → Option (List SleeperUser)
  fetchP : Nat → Option (List (String × Player))

/-- One appended row of the "Most Points Generated by Rostered Player
All-Time" tab. -/
structure HSRow where
  year : Nat
  week : Nat
  display_name : String
  player_name : String
  points : Int
  player_id : String
deriving Repr, DecidableEq

/-- The mutable state of `HighestScorerProcessor`: its own processed-week
ledger and the destination tab's data rows (always appended, never
rewritten). -/
structure HSState where
  processedWeeks : WeekLedger
  sheetRows : List HSRow
deriving Repr, DecidableEq

/-- One iteration of the week loop of
`HighestScorerProcessor.process_year`: skip an already-processed week; a
valid scorer appends one row and marks the week processed; no valid
scorer breaks the loop WITHOUT marking the week; an uncaught exception
aborts the run. -/
def hsWeekStep (lg : HSLeague) (year : Nat) (acc : Except String (HSState × Bool))
    (week : Nat) : Except String (HSState × Bool) :=
  match acc with
  | .error e => .error e
  | .ok (st, stopped) =>
    if stopped then .ok (st, true)
    else if (year, week) ∈ st.processedWeeks then .ok (st, false)
    else
      match hsProcessWeek (lg.fetchM week) (lg.fetchR week) (lg.fetchU week)
        (lg.fetchP week) with
      | .error e => .error e
      | .ok none => .ok (st, true)
      | .ok (some r) =>
        .ok ({ processedWeeks := st.processedWeeks ++ [(year, week)],
               sheetRows := st.sheetRows ++
                 [{ year := year, week := week, display_name := r.display_name,
                    player_name := r.player_name, points := r.points,
                    player_id := r.player_id }] }, false)

/-- Model of `HighestScorerProcessor.process_year`: weeks 1..18 in order. -/
def hsProcessYear (lg : HSLeague) (year : Nat) (st : HSState) :
    Except String HSState :=
  (seasonWeeks.foldl (hsWeekStep lg year) (.ok (st, false))).map fun p => p.1

/-- Model of `HighestScorerProcessor.run`: every configured league in order, an
empty league id skipped. -/
def hsRun (cfg : List (Nat × Option HSLeague)) (st : HSState) :
    Except String HSState :=
  cfg.foldl (fun acc entry =>
    match acc with
    | .error e => .error e
    | .ok s =>
      match entry.2 with
      | none => .ok s
      | some lg => hsProcessYear lg entry.1 s) (.ok st)

/-- The matchup loop of src/matchups.py's `process_week`: identical
scanning, but a misaligned matchup raises an unhandled IndexError. -/
def muLoop (rm : List (Nat × String)) (um : List (String × String))
    (pm : List (String × Player)) : List Matchup → Option (Int × HSRecord) →
    Except String (Option HSRecord)
  | [], best => .ok (best.map fun p => p.2)
  | m :: rest, best =>
    if starterMisaligned m then .error "IndexError"
    else muLoop rm um pm rest
      (hsScanStarters rm um pm m.roster_id (m.starters.zip m.starters_points) best)

/-- Model of `process_week` of the standalone src/matchups.py script: each failed
fetch returns None (no crash), a roster without `owner_id` raises an
uncaught KeyError, and the matchup loop has NO exception handler, so a
misaligned matchup propagates IndexError out of the script. -/
def muProcessWeek (matchups : Option (List Matchup)) (rosters : Option (List Roster))
    (users : Option (List SleeperUser)) (players : Option (List (String × Player))) :
    Except String (Option HSRecord) :=
  match matchups with
  | none => .ok none
  | some ms =>
    match rosters with
    | none => .ok none
    | some rs =>
      match users with
      | none => .ok none
      | some us =>
        if rs.any fun r => r.owner_id.isNone then .error "KeyError"
        else
          match players with
          | none => .ok none
          | some ps =>
            let um := us.map fun u => (u.user_id, u.display_name)
            let rm := rs.map fun r => (r.roster_id, r.owner_id.getD "")
            muLoop rm um ps ms none

/-! Lemmas about the week loop of `MarginCalculator.process_league`. -/

theorem weekFold_stopped (pa : Bool) (um : List (String × String))
    (rm : List (Nat × String)) (fetch : Nat → Option (List Matchup)) (year : Nat) :
    ∀ (ws : List Nat) (st : RunAcc),
    ws.foldl (processLeagueWeek pa um rm fetch year) (st, true) = (st, true) := by
  intro ws
  induction ws with
  | nil => intro st; rfl
  | cons w rest ih =>
    intro st
    rw [List.foldl_cons]
    have h1 : processLeagueWeek pa um rm fetch year (st, true) w = (st, true) := by
      simp [processLeagueWeek]
    rw [h1]
    exact ih st

theorem processLeagueWeek_ledger_mono (pa : Bool) (um : List (String × String))
    (rm : List (Nat × String)) (fetch : Nat → Option (List Matchup)) (year : Nat)
    (acc : RunAcc × Bool) (w : Nat) (k : Nat × Nat)
    (hk : k ∈ acc.1.processedWeeks) :
    k ∈ (processLeagueWeek pa um rm fetch year acc w).1.processedWeeks := by
  unfold processLeagueWeek
  split
  · exact hk
  split
  · exact hk
  split
  · exact hk
  · exact hk
  · exact List.mem_append_left _ hk

theorem processLeagueWeek_ledger_new (pa : Bool) (um : List (String × String))
    (rm : List (Nat × String)) (fetch : Nat → Option (List Matchup)) (year : Nat)
    (acc : RunAcc × Bool) (w : Nat) (k : Nat × Nat)
    (hk : k ∈ (processLeagueWeek pa um rm fetch year acc w).1.processedWeeks) :
    k ∈ acc.1.processedWeeks ∨ k.1 = year := by
  unfold processLeagueWeek at hk
  revert hk
  split
  · exact fun hk => Or.inl hk
  split
  · exact fun hk => Or.inl hk
  split
  · exact fun hk => Or.inl hk
  · exact fun hk => Or.inl hk
  · intro hk
    rcases List.mem_append.mp hk with h | h
    · exact Or.inl h
    · rcases List.mem_singleton.mp h with rfl
      exact Or.inr rfl

theorem weekFold_ledger_mono (pa : Bool) (um : List (String × String))
    (rm : List (Nat × String)) (fetch : Nat → Option (List Matchup)) (year : Nat) :
    ∀ (ws : List Nat) (acc : RunAcc × Bool) (k : Nat × Nat),
    k ∈ acc.1.processedWeeks →
    k ∈ ((ws.foldl (processLeagueWeek pa um rm fetch year) acc).1).processedWeeks := by
  intro ws
  induction ws with
  | nil => intro acc k hk; exact hk
  | cons w rest ih =>
    intro acc k hk
    rw [List.foldl_cons]
    exact ih _ k (processLeagueWeek_ledger_mono pa um rm fetch year acc w k hk)

theorem weekFold_ledger_new (pa : Bool) (um : List (String × String))
    (rm : List (Nat × String)) (fetch : Nat → Option (List Matchup)) (year : Nat) :
    ∀ (ws : List Nat) (acc : RunAcc × Bool) (k : Nat × Nat),
    k ∈ ((ws.foldl (processLeagueWeek pa um rm fetch year) acc).1).processedWeeks →
    k ∈ acc.1.processedWeeks ∨ k.1 = year := by
  intro ws
  induction ws with
  | nil => intro acc k hk; exact Or.inl hk
  | cons w rest ih =>
    intro acc k hk
    rw [List.foldl_cons] at hk
    rcases ih _ k hk with h | h
    · exact processLeagueWeek_ledger_new pa um rm fetch year acc w k h
    · exact Or.inr h

theorem weekFold_idem (um : List (String × String)) (rm : List (Nat × String))
    (fetch : Nat → Option (List Matchup)) (year : Nat) :
    ∀ (ws : List Nat) (s t : RunAcc) (b : Bool),
    (∀ w : Nat, (year, w) ∈ t.processedWeeks ↔
      (year, w) ∈ ((ws.foldl (processLeagueWeek false um rm fetch year) (s, b)).1).processedWeeks) →
    ws.foldl (processLeagueWeek false um rm fetch year) (t, b) =
      (t, (ws.foldl (processLeagueWeek false um rm fetch year) (s, b)).2) := by
  intro ws
  induction ws with
  | nil =>
    intro s t b hsl
    rfl
  | cons w rest ih =>
    intro s t b hsl
    rw [List.foldl_cons, List.foldl_cons]
    cases b with
    | true =>
      have hs1 : processLeagueWeek false um rm fetch year (s, true) w = (s, true) := by
        simp [processLeagueWeek]
      have ht1 : processLeagueWeek false um rm fetch year (t, true) w = (t, true) := by
        simp [processLeagueWeek]
      rw [hs1, ht1, weekFold_stopped, weekFold_stopped]
    | false =>
      by_cases hmem : (year, w) ∈ t.processedWeeks
      · -- the second run skips week w
        have ht1 : processLeagueWeek false um rm fetch year (t, false) w = (t, false) := by
          simp [processLeagueWeek, hmem]
        rw [ht1]
        by_cases hsmem : (year, w) ∈ s.processedWeeks
        · -- the first run also skips week w
          have hs1 : processLeagueWeek false um rm fetch year (s, false) w = (s, false) := by
            simp [processLeagueWeek, hsmem]
          rw [hs1]
          rw [List.foldl_cons, hs1] at hsl
          exact ih s t false hsl
        · -- the first run examines week w
          cases ho : weekOutcome um rm fetch year w with
          | skip =>
            have hs1 : processLeagueWeek false um rm fetch year (s, false) w = (s, false) := by
              simp [processLeagueWeek, hsmem, ho]
            rw [hs1]
            rw [List.foldl_cons, hs1] at hsl
            exact ih s t false hsl
          | stop =>
            -- impossible: the first run would never mark (year, w), yet hmem says it is in
            -- the final ledger
            have hs1 : processLeagueWeek false um rm fetch year (s, false) w = (s, true) := by
              simp [processLeagueWeek, hsmem, ho]
            exfalso
            have hfin := (hsl w).mp hmem
            rw [List.foldl_cons, hs1, weekFold_stopped] at hfin
            exact hsmem hfin
          | record lg sm =>
            have hs1 : processLeagueWeek false um rm fetch year (s, false) w =
                ({ processedWeeks := s.processedWeeks ++ [(year, w)],
                   largest := s.largest ++ [lg],
                   smallest := s.smallest ++ [sm] }, false) := by
              simp [processLeagueWeek, hsmem, ho]
            rw [hs1]
            rw [List.foldl_cons, hs1] at hsl
            exact ih _ t false hsl
      · -- the second run examines week w
        have hfinnot : (year, w) ∉
            ((rest.foldl (processLeagueWeek false um rm fetch year)
              (processLeagueWeek false um rm fetch year (s, false) w)).1).processedWeeks := by
          intro hc
          apply hmem
          apply (hsl w).mpr
          rw [List.foldl_cons]
          exact hc
        by_cases hsmem : (year, w) ∈ s.processedWeeks
        · -- impossible: monotonicity would put (year, w) in the final ledger
          exfalso
          apply hfinnot
          apply weekFold_ledger_mono
          exact processLeagueWeek_ledger_mono false um rm fetch year (s, false) w _ hsmem
        · cases ho : weekOutcome um rm fetch year w with
          | skip =>
            have hs1 : processLeagueWeek false um rm fetch year (s, false) w = (s, false) := by
              simp [processLeagueWeek, hsmem, ho]
            have ht1 : processLeagueWeek false um rm fetch year (t, false) w = (t, false) := by
              simp [processLeagueWeek, hmem, ho]
            rw [hs1, ht1]
            rw [List.foldl_cons, hs1] at hsl
            exact ih s t false hsl
          | stop =>
            have hs1 : processLeagueWeek false um rm fetch year (s, false) w = (s, true) := by
              simp [processLeagueWeek, hsmem, ho]
            have ht1 : processLeagueWeek false um rm fetch year (t, false) w = (t, true) := by
              simp [processLeagueWeek, hmem, ho]
            rw [hs1, ht1, weekFold_stopped, weekFold_stopped]
          | record lg sm =>
            -- impossible: the first run marks (year, w), contradicting hfinnot
            exfalso
            apply hfinnot
            have hs1 : processLeagueWeek false um rm fetch year (s, false) w =
                ({ processedWeeks := s.processedWeeks ++ [(year, w)],
                   largest := s.largest ++ [lg],
                   smallest := s.smallest ++ [sm] }, false) := by
              simp [processLeagueWeek, hsmem, ho]
            rw [hs1]
            apply weekFold_ledger_mono
            exact List.mem_append_right _ (List.mem_singleton.mpr rfl)

theorem processLeague_ledger_mono (pa : Bool) (um : List (String × String))
    (rm : List (Nat × String)) (fetch : Nat → Option (List Matchup)) (year : Nat)
    (st : RunAcc) (k : Nat × Nat) (hk : k ∈ st.processedWeeks) :
    k ∈ (processLeague pa um rm fetch year st).processedWeeks := by
  unfold processLeague
  split
  · exact hk
  · exact weekFold_ledger_mono pa um rm fetch year seasonWeeks (st, false) k hk

theorem processLeague_ledger_new (pa : Bool) (um : List (String × String))
    (rm : List (Nat × String)) (fetch : Nat → Option (List Matchup)) (year : Nat)
    (st : RunAcc) (k : Nat × Nat)
    (hk : k ∈ (processLeague pa um rm fetch year st).processedWeeks) :
    k ∈ st.processedWeeks ∨ k.1 = year := by
  unfold processLeague at hk
  revert hk
  split
  · exact fun hk => Or.inl hk
  · exact fun hk => weekFold_ledger_new pa um rm fetch year seasonWeeks (st, false) k hk

theorem leagueStep_ledger_mono (pa : Bool) (st : RunAcc)
    (entry : Nat × Option MarginLeague) (k : Nat × Nat) (hk : k ∈ st.processedWeeks) :
    k ∈ (leagueStep pa st entry).processedWeeks := by
  unfold leagueStep
  split
  · exact hk
  · exact processLeague_ledger_mono pa _ _ _ entry.1 st k hk

theorem leagueStep_ledger_new (pa : Bool) (st : RunAcc)
    (entry : Nat × Option MarginLeague) (k : Nat × Nat)
    (hk : k ∈ (leagueStep pa st entry).processedWeeks) :
    k ∈ st.processedWeeks ∨ k.1 = entry.1 := by
  unfold leagueStep at hk
  revert hk
  split
  · exact fun hk => Or.inl hk
  · exact fun hk => processLeague_ledger_new pa _ _ _ entry.1 st k hk

theorem cfgFold_ledger_mono (pa : Bool) :
    ∀ (cfg : List (Nat × Option MarginLeague)) (st : RunAcc) (k : Nat × Nat),
    k ∈ st.processedWeeks → k ∈ (cfg.foldl (leagueStep pa) st).processedWeeks := by
  intro cfg
  induction cfg with
  | nil => intro st k hk; exact hk
  | cons e rest ih =>
    intro st k hk
    rw [List.foldl_cons]
    exact ih _ k (leagueStep_ledger_mono pa st e k hk)

theorem cfgFold_ledger_new (pa : Bool) :
    ∀ (cfg : List (Nat × Option MarginLeague)) (st : RunAcc) (k : Nat × Nat),
    k ∈ (cfg.foldl (leagueStep pa) st).processedWeeks →
    k ∈ st.processedWeeks ∨ k.1 ∈ cfg.map Prod.fst := by
  intro cfg
  induction cfg with
  | nil => intro st k hk; exact Or.inl hk
  | cons e rest ih =>
    intro st k hk
    rw [List.foldl_cons] at hk
    rcases ih _ k hk with h | h
    · rcases leagueStep_ledger_new pa st e k h with h2 | h2
      · exact Or.inl h2
      · refine Or.inr ?_
        rw [List.map_cons, h2]
        exact List.mem_cons_self _ _
    · refine Or.inr ?_
      rw [List.map_cons]
      exact List.mem_cons_of_mem _ h

theorem cfgFold_idem :
    ∀ (cfg : List (Nat × Option MarginLeague)), (cfg.map Prod.fst).Nodup →
    ∀ (s t : RunAcc),
    t.processedWeeks = (cfg.foldl (leagueStep false) s).processedWeeks →
    cfg.foldl (leagueStep false) t = t := by
  intro cfg
  induction cfg with
  | nil => intro _ s t _; rfl
  | cons e rest ih =>
    intro hnd s t ht
    rcases e with ⟨y, olg⟩
    rw [List.map_cons, List.nodup_cons] at hnd
    rw [List.foldl_cons] at ht
    rw [List.foldl_cons]
    have hstep : leagueStep false t (y, olg) = t := by
      cases olg with
      | none => rfl
      | some lg =>
        show processLeague false lg.um lg.rm lg.fetch y t = t
        by_cases hemp : lg.um.isEmpty ∨ lg.rm.isEmpty
        · unfold processLeague
          rw [if_pos hemp]
        · have hs1 : leagueStep false s (y, some lg) =
              (seasonWeeks.foldl (processLeagueWeek false lg.um lg.rm lg.fetch y)
                (s, false)).1 := by
            show processLeague false lg.um lg.rm lg.fetch y s = _
            unfold processLeague
            rw [if_neg hemp]
          have hsl : ∀ w : Nat, (y, w) ∈ t.processedWeeks ↔
              (y, w) ∈ ((seasonWeeks.foldl
                (processLeagueWeek false lg.um lg.rm lg.fetch y)
                (s, false)).1).processedWeeks := by
            intro w
            constructor
            · intro hw
              rw [ht] at hw
              rcases cfgFold_ledger_new false rest _ _ hw with h | h
              · rw [hs1] at h
                exact h
              · exact absurd h hnd.1
            · intro hw
              rw [ht]
              apply cfgFold_ledger_mono
              rw [hs1]
              exact hw
          unfold processLeague
          rw [if_neg hemp]
          rw [weekFold_idem lg.um lg.rm lg.fetch y seasonWeeks s t false hsl]
    rw [hstep]
    exact ih hnd.2 (leagueStep false s (y, olg)) t ht

theorem marginRun_fst (cfg : List (Nat × Option MarginLeague)) (P : WeekLedger)
    (sheets : SheetsState) :
    (marginRun cfg P sheets).1 = (marginFinal cfg P sheets).processedWeeks := rfl

theorem marginRun_keeps_some (cfg : List (Nat × Option MarginLeague)) (P : WeekLedger)
    (sheets : SheetsState) (hL : sheets.largestSheet.isSome = true)
    (hS : sheets.smallestSheet.isSome = true) :
    ((marginRun cfg P sheets).2).largestSheet.isSome = true ∧
    ((marginRun cfg P sheets).2).smallestSheet.isSome = true := by
  simp only [marginRun]
  split <;> split <;> simp [hL, hS]

theorem marginRun_of_empty (cfg : List (Nat × Option MarginLeague)) (P : WeekLedger)
    (sheets : SheetsState) (h1 : (marginFinal cfg P sheets).largest = [])
    (h2 : (marginFinal cfg P sheets).smallest = []) :
    marginRun cfg P sheets = ((marginFinal cfg P sheets).processedWeeks, sheets) := by
  simp [marginRun, h1, h2]

/-- C4 (amended): MarginAnalyzer is idempotent across consecutive runs
when the ledger is persisted between runs, the configured years are
pairwise distinct (as Python dict keys are), and both destination tabs
already exist at the start of the FIRST run: the second run changes
neither the ledger nor either destination tab, so it appends zero
additional rows. -/
theorem claim4_amended_idempotent (cfg : List (Nat × Option MarginLeague))
    (P0 : WeekLedger) (sheets0 : SheetsState)
    (hL : sheets0.largestSheet.isSome = true) (hS : sheets0.smallestSheet.isSome = true)
    (hnd : (cfg.map Prod.fst).Nodup) :
    marginRun cfg (marginRun cfg P0 sheets0).1 (marginRun cfg P0 sheets0).2 =
      marginRun cfg P0 sheets0 := by
  have hkeep := marginRun_keeps_some cfg P0 sheets0 hL hS
  have hpa1 : marginProcessAll sheets0 = false := by
    unfold marginProcessAll
    rw [hL, hS]
    rfl
  have hpa2 : marginProcessAll (marginRun cfg P0 sheets0).2 = false := by
    unfold marginProcessAll
    rw [hkeep.1, hkeep.2]
    rfl
  have hfin2 : marginFinal cfg (marginRun cfg P0 sheets0).1 (marginRun cfg P0 sheets0).2 =
      { processedWeeks := (marginFinal cfg P0 sheets0).processedWeeks,
        largest := [], smallest := [] } := by
    unfold marginFinal
    rw [hpa2]
    apply cfgFold_idem cfg hnd { processedWeeks := P0, largest := [], smallest := [] }
    show (marginRun cfg P0 sheets0).1 = _
    rw [marginRun_fst]
    unfold marginFinal
    rw [hpa1]
  have h1 : (marginFinal cfg (marginRun cfg P0 sheets0).1
      (marginRun cfg P0 sheets0).2).largest = [] := by
    rw [hfin2]
  have h2 : (marginFinal cfg (marginRun cfg P0 sheets0).1
      (marginRun cfg P0 sheets0).2).smallest = [] := by
    rw [hfin2]
  rw [marginRun_of_empty cfg _ _ h1 h2, hfin2]
  rfl

/-! Concrete scenarios used by counterexamples and witnesses. -/

/-- Matchup of roster 1 in pairing 1 scoring 100. -/
def mA100 : Matchup :=
  { roster_id := 1, matchup_id := 1, points := 100, starters := [], starters_points := [] }

/-- Matchup of roster 2 in pairing 1 scoring 40. -/
def mB40 : Matchup :=
  { roster_id := 2, matchup_id := 1, points := 40, starters := [], starters_points := [] }

/-- Matchup of roster 1 in pairing 1 scoring 0. -/
def mA0 : Matchup :=
  { roster_id := 1, matchup_id := 1, points := 0, starters := [], starters_points := [] }

/-- Matchup of roster 2 in pairing 1 scoring 0. -/
def mB0 : Matchup :=
  { roster_id := 2, matchup_id := 1, points := 0, starters := [], starters_points := [] }

/-- Matchup of roster 1 in pairing 1 scoring 50. -/
def mA50 : Matchup :=
  { roster_id := 1, matchup_id := 1, points := 50, starters := [], starters_points := [] }

/-- Matchup of roster 2 in pairing 1 scoring 20. -/
def mB20 : Matchup :=
  { roster_id := 2, matchup_id := 1, points := 20, starters := [], starters_points := [] }

/-- A two-user display-name mapping. -/
def ceUm : List (String × String) := [("u1", "Alice"), ("u2", "Bob")]

/-- Roster 1 owned by u1, roster 2 owned by u2. -/
def ceRm : List (Nat × String) := [(1, "u1"), (2, "u2")]

/-- League whose data is: week 1 a 100-40 pairing, week 2 a 0-0 pairing
(season over), week 3 a 50-20 pairing, all later weeks unfetchable. -/
def ce4League : MarginLeague :=
  { um := ceUm, rm := ceRm,
    fetch := fun w =>
      if w = 1 then some [mA100, mB40]
      else if w = 2 then some [mA0, mB0]
      else if w = 3 then some [mA50, mB20]
      else none }

/-- A one-league configuration for year 2023. -/
def ce4Cfg : List (Nat × Option MarginLeague) := [(2023, some ce4League)]

/-- Initial ledger of the C4 counterexample: week 2 of 2023 is already
marked processed. -/
def ce4Ledger0 : WeekLedger := [(2023, 2)]

/-- Both margin tabs are absent at the start of the first run. -/
def ce4Sheets0 : SheetsState := { largestSheet := none, smallestSheet := none }

/-- C4 counterexample: with the `ce4` data, the first run (destination
tabs absent, so a full backfill) stops at the zero-zero week 2 without
marking it, and publishes week 1, creating both tabs.  At the start of
the second run the ledger has been persisted and both tabs exist — the
claim's hypotheses — yet the second run skips week 2 (it is in the
ledger), reaches week 3 and appends its rows: the second run is NOT a
no-op, refuting the claim as stated. -/
theorem claim4_counterexample :
    ((marginRun ce4Cfg ce4Ledger0 ce4Sheets0).2).largestSheet.isSome = true ∧
    ((marginRun ce4Cfg ce4Ledger0 ce4Sheets0).2).smallestSheet.isSome = true ∧
    marginRun ce4Cfg (marginRun ce4Cfg ce4Ledger0 ce4Sheets0).1
        (marginRun ce4Cfg ce4Ledger0 ce4Sheets0).2 ≠
      marginRun ce4Cfg ce4Ledger0 ce4Sheets0 := by
  refine ⟨by decide, by decide, by decide⟩

/-- Both margin tabs exist (empty) at the start of the first run. -/
def w4Sheets0 : SheetsState := { largestSheet := some [], smallestSheet := some [] }

/-- Witness for the amended C4: at the concrete `ce4` league with both
tabs existing from the start, the hypotheses hold and the second run is
a no-op. -/
theorem claim4_witness :
    w4Sheets0.largestSheet.isSome = true ∧ w4Sheets0.smallestSheet.isSome = true ∧
    (ce4Cfg.map Prod.fst).Nodup ∧
    marginRun ce4Cfg (marginRun ce4Cfg ce4Ledger0 w4Sheets0).1
        (marginRun ce4Cfg ce4Ledger0 w4Sheets0).2 =
      marginRun ce4Cfg ce4Ledger0 w4Sheets0 :=
  ⟨by decide, by decide, by decide,
    claim4_amended_idempotent ce4Cfg ce4Ledger0 w4Sheets0 (by decide) (by decide) (by decide)⟩

/-! Lemmas and scenarios for the zero-zero stop behavior (C1). -/

theorem pairEntry_zero_iff (um : List (String × String)) (rm : List (Nat × String))
    (year week : Nat) (t1 t2 : Matchup) :
    ((pairEntry um rm year week t1 t2).winner_points = 0 ∧
      (pairEntry um rm year week t1 t2).loser_points = 0) ↔
    (t1.points = 0 ∧ t2.points = 0) := by
  by_cases h : t1.points ≥ t2.points
  · simp [pairEntry, h]
  · simp only [pairEntry, if_neg h]
    exact and_comm

theorem marginsOfGroups_eq_none_iff (um : List (String × String))
    (rm : List (Nat × String)) (year week : Nat) :
    ∀ gl : List (Nat × List Matchup),
    marginsOfGroups um rm year week gl = none ↔
    ∃ gid t1 t2, (gid, [t1, t2]) ∈ gl ∧ t1.points = 0 ∧ t2.points = 0 := by
  intro gl
  induction gl with
  | nil =>
    simp [marginsOfGroups]
  | cons g rest ih =>
    rcases g with ⟨gid, teams⟩
    match teams with
    | [t1, t2] =>
      by_cases hz : (pairEntry um rm year week t1 t2).winner_points = 0 ∧
          (pairEntry um rm year week t1 t2).loser_points = 0
      · have hz2 := (pairEntry_zero_iff um rm year week t1 t2).mp hz
        simp only [marginsOfGroups, if_pos hz]
        constructor
        · intro _
          exact ⟨gid, t1, t2, List.mem_cons_self _ _, hz2⟩
        · intro _
          trivial
      · simp only [marginsOfGroups, if_neg hz]
        constructor
        · intro h
          rcases Option.map_eq_none.mp h with h2
          rcases (ih.mp h2) with ⟨gid2, s1, s2, hmem, hzz⟩
          exact ⟨gid2, s1, s2, List.mem_cons_of_mem _ hmem, hzz⟩
        · intro h
          rcases h with ⟨gid2, s1, s2, hmem, hzz⟩
          rcases List.mem_cons.mp hmem with heq | hmem2
          · exfalso
            apply hz
            have h1 : t1 = s1 := by
              injection heq with h3 h4
              injection h4 with h5 h6
              exact h5.symm
            have h2 : t2 = s2 := by
              injection heq with h3 h4
              injection h4 with h5 h6
              injection h6 with h7 h8
              exact h7.symm
            apply (pairEntry_zero_iff um rm year week t1 t2).mpr
            rw [h1, h2]
            exact hzz
          · apply Option.map_eq_none.mpr
            exact ih.mpr ⟨gid2, s1, s2, hmem2, hzz⟩
    | [] =>
      simp only [marginsOfGroups]
      rw [ih]
      constructor
      · intro h
        rcases h with ⟨gid2, s1, s2, hmem, hzz⟩
        exact ⟨gid2, s1, s2, List.mem_cons_of_mem _ hmem, hzz⟩
      · intro h
        rcases h with ⟨gid2, s1, s2, hmem, hzz⟩
        rcases List.mem_cons.mp hmem with heq | hmem2
        · exact absurd heq (by simp)
        · exact ⟨gid2, s1, s2, hmem2, hzz⟩
    | t0 :: t1 :: t2 :: ts =>
      simp only [marginsOfGroups]
      rw [ih]
      constructor
      · intro h
        rcases h with ⟨gid2, s1, s2, hmem, hzz⟩
        exact ⟨gid2, s1, s2, List.mem_cons_of_mem _ hmem, hzz⟩
      · intro h
        rcases h with ⟨gid2, s1, s2, hmem, hzz⟩
        rcases List.mem_cons.mp hmem with heq | hmem2
        · exfalso
          injection heq with h3 h4
          simp at h4
        · exact ⟨gid2, s1, s2, hmem2, hzz⟩
    | [t0] =>
      simp only [marginsOfGroups]
      rw [ih]
      constructor
      · intro h
        rcases h with ⟨gid2, s1, s2, hmem, hzz⟩
        exact ⟨gid2, s1, s2, List.mem_cons_of_mem _ hmem, hzz⟩
      · intro h
        rcases h with ⟨gid2, s1, s2, hmem, hzz⟩
        rcases List.mem_cons.mp hmem with heq | hmem2
        · exfalso
          injection heq with h3 h4
          simp at h4
        · exact ⟨gid2, s1, s2, hmem2, hzz⟩

theorem hsWeekFold_stopped (lg : HSLeague) (year : Nat) :
    ∀ (ws : List Nat) (st : HSState),
    ws.foldl (hsWeekStep lg year) (Except.ok (st, true)) = Except.ok (st, true) := by
  intro ws
  induction ws with
  | nil => intro st; rfl
  | cons w rest ih =>
    intro st
    rw [List.foldl_cons]
    have h1 : hsWeekStep lg year (Except.ok (st, true)) w = Except.ok (st, true) := by
      simp [hsWeekStep]
    rw [h1]
    exact ih st

/-- C1 (amended): when `MarginCalculator.process_league` reaches a week
one of whose pairings has both sides at exactly zero, it halts that
league at once: no largest or smallest record is produced for that week
or any later week, and the stopping week is NOT marked processed (the
ledger is left exactly as it was before that week) — and
`HighestScorerProcessor.process_year` likewise leaves its state
unchanged, not marking its stopping week, when `process_week` finds no
valid scorer.  The two pipelines behave symmetrically here: neither
marks its stopping week. -/
theorem claim1_amended_stop_unmarked
    (pa : Bool) (um : List (String × String)) (rm : List (Nat × String))
    (fetch : Nat → Option (List Matchup)) (year : Nat) (st st1 : RunAcc)
    (w : Nat) (ws1 ws2 : List Nat) (ms : List Matchup)
    (hws : seasonWeeks = ws1 ++ w :: ws2)
    (hpre : ws1.foldl (processLeagueWeek pa um rm fetch year) (st, false) = (st1, false))
    (hskip : pa = false → (year, w) ∉ st1.processedWeeks)
    (hms : fetch w = some ms) (hne : ms.isEmpty = false)
    (hzz : ∃ gid t1 t2, (gid, [t1, t2]) ∈ groupByMatchupId ms ∧
      t1.points = 0 ∧ t2.points = 0)
    (lg : HSLeague) (hs0 hs1 : HSState)
    (hhpre : ws1.foldl (hsWeekStep lg year) (Except.ok (hs0, false)) =
      Except.ok (hs1, false))
    (hhskip : (year, w) ∉ hs1.processedWeeks)
    (hhstop : hsProcessWeek (lg.fetchM w) (lg.fetchR w) (lg.fetchU w) (lg.fetchP w) =
      Except.ok none) :
    (seasonWeeks.foldl (processLeagueWeek pa um rm fetch year) (st, false)).1 = st1 ∧
    hsProcessYear lg year hs0 = Except.ok hs1 := by
  have hout : weekOutcome um rm fetch year w = WeekResult.stop := by
    unfold weekOutcome
    rw [hms]
    simp only [hne]
    rw [(marginsOfGroups_eq_none_iff um rm year w (groupByMatchupId ms)).mpr hzz]
    rfl
  constructor
  · rw [hws, List.foldl_append, hpre, List.foldl_cons]
    have hstep : processLeagueWeek pa um rm fetch year (st1, false) w = (st1, true) := by
      unfold processLeagueWeek
      simp only [hout]
      cases pa with
      | true => simp
      | false => simp [hskip rfl]
    rw [hstep, weekFold_stopped]
  · unfold hsProcessYear
    rw [hws, List.foldl_append, hhpre, List.foldl_cons]
    have hstep : hsWeekStep lg year (Except.ok (hs1, false)) w = Except.ok (hs1, true) := by
      unfold hsWeekStep
      simp [hhskip, hhstop]
    rw [hstep, hsWeekFold_stopped]
    rfl

instance {ε α : Type} [DecidableEq ε] [DecidableEq α] : DecidableEq (Except ε α) :=
  fun a b =>
    match a, b with
    | .error e, .error f =>
      if h : e = f then .isTrue (by rw [h]) else
        .isFalse (by intro hc; injection hc; contradiction)
    | .ok x, .ok y =>
      if h : x = y then .isTrue (by rw [h]) else
        .isFalse (by intro hc; injection hc; contradiction)
    | .error _, .ok _ => .isFalse (by intro hc; injection hc)
    | .ok _, .error _ => .isFalse (by intro hc; injection hc)

/-- League whose week 1 has a pairing with both sides at zero. -/
def ce1League : MarginLeague :=
  { um := ceUm, rm := ceRm,
    fetch := fun w => if w = 1 then some [mA0, mB0] else none }

/-- A one-league configuration for year 2023 stopping at week 1. -/
def ce1Cfg : List (Nat × Option MarginLeague) := [(2023, some ce1League)]

/-- C1 counterexample: with a zero-zero pairing in week 1,
`MarginCalculator` halts without producing any record — and WITHOUT
marking the stopping week in its ledger (the ledger stays empty),
refuting the claim that MarginAnalyzer marks the stopping week
processed. -/
theorem claim1_counterexample :
    (marginRun ce1Cfg [] ce4Sheets0).1 = [] ∧
    (2023, 1) ∉ (marginRun ce1Cfg [] ce4Sheets0).1 ∧
    (marginRun ce1Cfg [] ce4Sheets0).2 = ce4Sheets0 := by
  refine ⟨by decide, by decide, by decide⟩

/-- The empty margin accumulator state. -/
def emptyAcc : RunAcc := { processedWeeks := [], largest := [], smallest := [] }

/-- The empty high-scorer state. -/
def emptyHS : HSState := { processedWeeks := [], sheetRows := [] }

/-- Rosters 1 and 2 owned by u1 and u2. -/
def ceRosters : List Roster :=
  [{ roster_id := 1, owner_id := some "u1" }, { roster_id := 2, owner_id := some "u2" }]

/-- The two users of the concrete scenarios. -/
def ceUsers : List SleeperUser :=
  [{ user_id := "u1", display_name := "Alice" }, { user_id := "u2", display_name := "Bob" }]

/-- A one-player directory. -/
def cePlayers : List (String × Player) :=
  [("p1", { first_name := "Tom", last_name := "Brady" })]

/-- High-scorer league whose week 1 has a single starter scoring 0
(so the weekly maximum is ≤ 0 and the league stops). -/
def ce1HsLeague : HSLeague :=
  { fetchM := fun w =>
      if w = 1 then
        some [{ roster_id := 1, matchup_id := 1, points := 0,
                starters := ["p1"], starters_points := [0] }]
      else none,
    fetchR := fun _ => some ceRosters,
    fetchU := fun _ => some ceUsers,
    fetchP := fun _ => some cePlayers }

/-- Witness for the amended C1 at week 1 of the concrete leagues: the
zero-zero hypothesis and the no-scorer hypothesis hold, and both
pipelines leave their state unchanged — in particular neither marks
week 1 processed. -/
theorem claim1_witness :
    (∃ gid t1 t2, (gid, [t1, t2]) ∈ groupByMatchupId [mA0, mB0] ∧
      t1.points = 0 ∧ t2.points = 0) ∧
    hsProcessWeek (ce1HsLeague.fetchM 1) (ce1HsLeague.fetchR 1) (ce1HsLeague.fetchU 1)
      (ce1HsLeague.fetchP 1) = Except.ok none ∧
    (seasonWeeks.foldl
      (processLeagueWeek false ce1League.um ce1League.rm ce1League.fetch 2023)
      (emptyAcc, false)).1 = emptyAcc ∧
    hsProcessYear ce1HsLeague 2023 emptyHS = Except.ok emptyHS := by
  have h := claim1_amended_stop_unmarked false ce1League.um ce1League.rm ce1League.fetch
    2023 emptyAcc emptyAcc 1 [] (List.range' 2 17) [mA0, mB0]
    (by decide) rfl (fun _ => by decide) (by decide) (by decide)
    ⟨1, mA0, mB0, by decide, rfl, rfl⟩
    ce1HsLeague emptyHS emptyHS rfl (by decide) (by decide)
  exact ⟨⟨1, mA0, mB0, by decide, rfl, rfl⟩, by decide, h.1, h.2⟩

/-! Lemmas and scenarios for fetch-failure behavior (C2). -/

theorem processLeagueWeek_fetch_none (pa : Bool) (um : List (String × String))
    (rm : List (Nat × String)) (fetch : Nat → Option (List Matchup)) (year : Nat)
    (st : RunAcc) (w : Nat) (hfw : fetch w = none) :
    processLeagueWeek pa um rm fetch year (st, false) w = (st, false) := by
  have hout : weekOutcome um rm fetch year w = WeekResult.skip := by
    unfold weekOutcome
    rw [hfw]
  unfold processLeagueWeek
  simp only [hout]
  split
  · rfl
  split
  · rfl
  · rfl

theorem processLeagueWeek_stop_inv (pa : Bool) (um : List (String × String))
    (rm : List (Nat × String)) (fetch : Nat → Option (List Matchup)) (year : Nat)
    (st : RunAcc) (w : Nat) (res : RunAcc)
    (h : processLeagueWeek pa um rm fetch year (st, false) w = (res, true)) :
    weekOutcome um rm fetch year w = WeekResult.stop := by
  unfold processLeagueWeek at h
  revert h
  split
  · intro h
    exact absurd (congrArg Prod.snd h) (by simp)
  split
  · intro h
    exact absurd (congrArg Prod.snd h) (by simp)
  · split
    · intro h
      exact absurd (congrArg Prod.snd h) (by simp)
    · intro _
      assumption
    · intro h
      exact absurd (congrArg Prod.snd h) (by simp)

theorem weekOutcome_stop_inv (um : List (String × String)) (rm : List (Nat × String))
    (fetch : Nat → Option (List Matchup)) (year : Nat) (w : Nat)
    (h : weekOutcome um rm fetch year w = WeekResult.stop) :
    ∃ ms gid t1 t2, fetch w = some ms ∧ (gid, [t1, t2]) ∈ groupByMatchupId ms ∧
      t1.points = 0 ∧ t2.points = 0 := by
  unfold weekOutcome at h
  cases hfw : fetch w with
  | none =>
    rw [hfw] at h
    exact absurd h (by simp)
  | some ms =>
    rw [hfw] at h
    dsimp only at h
    by_cases he : ms.isEmpty
    · rw [if_pos he] at h
      exact absurd h (by simp)
    · rw [if_neg he] at h
      cases hm : marginsOfGroups um rm year w (groupByMatchupId ms) with
      | none =>
        obtain ⟨gid, t1, t2, hmem, hz⟩ :=
          (marginsOfGroups_eq_none_iff um rm year w (groupByMatchupId ms)).mp hm
        exact ⟨ms, gid, t1, t2, rfl, hmem, hz⟩
      | some margins =>
        rw [hm] at h
        dsimp only at h
        rcases hmx : maxByMargin margins with _ | lgm <;>
          rcases hmn : minByMargin margins with _ | smm <;>
          (rw [hmx, hmn] at h; simp at h)

/-- C2 (amended): a failed or non-success remote fetch never halts the
margin per-week loop (the week contributes nothing and the loop
continues), and the margin loop's stop flag is raised only by a pairing
with both sides at exactly zero; but in `HighestScorerProcessor` every
fetch happens before `highest_points` is assigned, so a failed fetch is
caught and then `if highest_points <= 0` raises an uncaught
UnboundLocalError that aborts the run — a failed fetch DOES halt the
high-scorer pipeline; its loop otherwise breaks, without marking the
week, exactly when `process_week` returns no valid scorer. -/
theorem claim2_amended_fetch_failure :
    (∀ (pa : Bool) (um : List (String × String)) (rm : List (Nat × String))
      (fetch : Nat → Option (List Matchup)) (year : Nat) (st : RunAcc) (w : Nat),
      fetch w = none →
      processLeagueWeek pa um rm fetch year (st, false) w = (st, false)) ∧
    (∀ (pa : Bool) (um : List (String × String)) (rm : List (Nat × String))
      (fetch : Nat → Option (List Matchup)) (year : Nat) (st : RunAcc) (w : Nat)
      (res : RunAcc),
      processLeagueWeek pa um rm fetch year (st, false) w = (res, true) →
      ∃ ms gid t1 t2, fetch w = some ms ∧ (gid, [t1, t2]) ∈ groupByMatchupId ms ∧
        t1.points = 0 ∧ t2.points = 0) ∧
    (∀ (m : Option (List Matchup)) (r : Option (List Roster))
      (u : Option (List SleeperUser)) (p : Option (List (String × Player))),
      m = none ∨ r = none ∨ u = none ∨ p = none →
      hsProcessWeek m r u p = Except.error "UnboundLocalError") ∧
    (∀ (lg : HSLeague) (year : Nat) (st : HSState) (w : Nat),
      (year, w) ∉ st.processedWeeks →
      hsProcessWeek (lg.fetchM w) (lg.fetchR w) (lg.fetchU w) (lg.fetchP w) =
        Except.ok none →
      hsWeekStep lg year (Except.ok (st, false)) w = Except.ok (st, true)) := by
  refine ⟨?_, ?_, ?_, ?_⟩
  · intro pa um rm fetch year st w hfw
    exact processLeagueWeek_fetch_none pa um rm fetch year st w hfw
  · intro pa um rm fetch year st w res h
    exact weekOutcome_stop_inv um rm fetch year w
      (processLeagueWeek_stop_inv pa um rm fetch year st w res h)
  · intro m r u p hnone
    rcases hnone with rfl | rfl | rfl | rfl
    · cases r <;> cases u <;> cases p <;> rfl
    · cases m <;> cases u <;> cases p <;> rfl
    · cases m <;> cases r <;> cases p <;> rfl
    · cases m <;> cases r <;> cases u <;> rfl
  · intro lg year st w hmem hstop
    unfold hsWeekStep
    simp [hmem, hstop]

/-- A matchup whose single starter p1 scores 10. -/
def mGood : Matchup :=
  { roster_id := 1, matchup_id := 1, points := 10, starters := ["p1"],
    starters_points := [10] }

/-- High-scorer league whose users fetch fails in week 1 while weeks 1
and 2 have matchup data with a positive scorer. -/
def ce2HsLeague : HSLeague :=
  { fetchM := fun w => if w = 1 ∨ w = 2 then some [mGood] else none,
    fetchR := fun _ => some ceRosters,
    fetchU := fun w => if w = 1 then none else some ceUsers,
    fetchP := fun _ => some cePlayers }

/-- The positive scorer that week 2 of the C2 counterexample league
would produce. -/
def ce2Record : HSRecord :=
  { player_id := "p1", points := 10, user_id := "u1", display_name := "Alice",
    player_name := "Tom Brady" }

/-- C2 counterexample: a failed users fetch in week 1 aborts the whole
high-scorer run with an uncaught UnboundLocalError, so the loop does NOT
continue to week 2 even though week 2 has a valid positive scorer —
refuting the claim that a failed fetch never halts the high-scorer
per-week loop. -/
theorem claim2_counterexample :
    hsRun [(2023, some ce2HsLeague)] emptyHS = Except.error "UnboundLocalError" ∧
    hsProcessWeek (ce2HsLeague.fetchM 2) (ce2HsLeague.fetchR 2) (ce2HsLeague.fetchU 2)
        (ce2HsLeague.fetchP 2) = Except.ok (some ce2Record) := by
  refine ⟨by decide, by decide⟩

/-- Witness for the amended C2 at concrete inputs: a failed margin fetch
leaves the loop state unchanged; the concrete zero-zero league is the
only way the stop flag was raised; a failed users fetch makes
process_week raise; and a no-scorer week stops the high-scorer loop
without marking. -/
theorem claim2_witness :
    processLeagueWeek true ceUm ceRm (fun _ => none) 2023 (emptyAcc, false) 1 =
      (emptyAcc, false) ∧
    (∃ ms gid t1 t2, ce1League.fetch 1 = some ms ∧
      (gid, [t1, t2]) ∈ groupByMatchupId ms ∧ t1.points = 0 ∧ t2.points = 0) ∧
    hsProcessWeek (some [mGood]) (some ceRosters) none (some cePlayers) =
      Except.error "UnboundLocalError" ∧
    hsWeekStep ce1HsLeague 2023 (Except.ok (emptyHS, false)) 1 =
      Except.ok (emptyHS, true) := by
  refine ⟨claim2_amended_fetch_failure.1 true ceUm ceRm (fun _ => none) 2023 emptyAcc 1 rfl,
    claim2_amended_fetch_failure.2.1 false ce1League.um ce1League.rm ce1League.fetch
      2023 emptyAcc 1 emptyAcc (by decide),
    claim2_amended_fetch_failure.2.2.1 (some [mGood]) (some ceRosters) none
      (some cePlayers) (Or.inr (Or.inr (Or.inl rfl))),
    claim2_amended_fetch_failure.2.2.2 ce1HsLeague 2023 emptyHS 1 (by decide) (by decide)⟩

/-! Lemmas about dict lookups and the season aggregator (C3, C7, C8). -/

theorem foldl_lookup_eq_some {α β : Type} [DecidableEq α] (k : α) :
    ∀ (l : List (α × β)) (acc : Option β) (v : β),
    l.foldl (fun acc p => if p.1 = k then some p.2 else acc) acc = some v →
    acc = some v ∨ (k, v) ∈ l := by
  intro l
  induction l with
  | nil => intro acc v h; exact Or.inl h
  | cons p rest ih =>
    intro acc v h
    rw [List.foldl_cons] at h
    rcases ih _ v h with h2 | h2
    · by_cases hk : p.1 = k
      · rw [if_pos hk] at h2
        injection h2 with h3
        right
        rw [← hk, ← h3]
        exact List.mem_cons_self _ _
      · rw [if_neg hk] at h2
        exact Or.inl h2
    · exact Or.inr (List.mem_cons_of_mem _ h2)

theorem getLast_mem {α β : Type} [DecidableEq α] (l : List (α × β)) (k : α) (v : β)
    (h : getLast l k = some v) : (k, v) ∈ l := by
  rcases foldl_lookup_eq_some k l none v h with h2 | h2
  · exact absurd h2 (by simp)
  · exact h2

theorem resolveOwner_mem (rosters : List Roster) (rid : Nat) (v : String)
    (h : resolveOwner rosters rid = some v) :
    ∃ r, r ∈ rosters ∧ r.owner_id = some v := by
  unfold resolveOwner at h
  rcases hg : getLast (rosters.map fun r => (r.roster_id, r.owner_id)) rid with _ | ow
  · rw [hg] at h
    exact absurd h (by simp)
  · rw [hg] at h
    cases ow with
    | none => exact absurd h (by simp)
    | some uid =>
      have hv : uid = v := by injection h
      have hmem := getLast_mem _ _ _ hg
      rcases List.mem_map.mp hmem with ⟨r, hr, hre⟩
      injection hre with h1 h2
      exact ⟨r, hr, by rw [h2, hv]⟩

theorem weekValue_zero_of_no_owner (rosters : List Roster) (userKeys : List String)
    (uid : String) (h : ∀ r ∈ rosters, r.owner_id ≠ some uid) :
    ∀ (ms : List Matchup), weekValue rosters userKeys ms uid = 0 := by
  have hgen : ∀ (ms : List Matchup) (acc : Int),
      ms.foldl (fun acc m =>
        match resolveOwner rosters m.roster_id with
        | some v => if v ≠ "" ∧ v ∈ userKeys ∧ v = uid then m.points else acc
        | none => acc) acc = acc := by
    intro ms
    induction ms with
    | nil => intro acc; rfl
    | cons m rest ih =>
      intro acc
      rw [List.foldl_cons]
      have hone : (match resolveOwner rosters m.roster_id with
          | some v => if v ≠ "" ∧ v ∈ userKeys ∧ v = uid then m.points else acc
          | none => acc) = acc := by
        rcases hro : resolveOwner rosters m.roster_id with _ | v
        · rfl
        · dsimp only
          rw [if_neg]
          intro hc
          rcases resolveOwner_mem rosters m.roster_id v hro with ⟨r, hr, hown⟩
          rw [hc.2.2] at hown
          exact h r hr hown
      rw [hone]
      exact ih acc
  intro ms
  exact hgen ms 0

theorem pyDictInsert_key_mem {α β : Type} [DecidableEq α] (acc : List (α × β))
    (k' : α) (v : β) (k : α) :
    (∃ kv ∈ pyDictInsert acc k' v, kv.1 = k) ↔ (∃ kv ∈ acc, kv.1 = k) ∨ k = k' := by
  unfold pyDictInsert
  by_cases hany : acc.any fun p => decide (p.1 = k')
  · rw [if_pos hany]
    constructor
    · intro h
      rcases h with ⟨kv, hkv, hk⟩
      rcases List.mem_map.mp hkv with ⟨p, hp, hpe⟩
      by_cases hpk : p.1 = k'
      · rw [if_pos hpk] at hpe
        left
        refine ⟨p, hp, ?_⟩
        rw [hpk]
        rw [← hpe] at hk
        exact hk
      · rw [if_neg hpk] at hpe
        left
        exact ⟨p, hp, by rw [hpe]; exact hk⟩
    · intro h
      rcases h with ⟨kv, hkv, hk⟩ | hk
      · by_cases hpk : kv.1 = k'
        · refine ⟨(k', v), List.mem_map.mpr ⟨kv, hkv, by rw [if_pos hpk]⟩, ?_⟩
          rw [← hpk]
          exact hk
        · exact ⟨kv, List.mem_map.mpr ⟨kv, hkv, by rw [if_neg hpk]⟩, hk⟩
      · rcases List.any_eq_true.mp hany with ⟨p, hp, hpk⟩
        have hpk2 : p.1 = k' := of_decide_eq_true hpk
        by_cases hsame : p.1 = k'
        · refine ⟨(k', v), List.mem_map.mpr ⟨p, hp, by rw [if_pos hsame]⟩, by rw [hk]⟩
        · exact absurd hpk2 hsame
  · rw [if_neg hany]
    constructor
    · intro h
      rcases h with ⟨kv, hkv, hk⟩
      rcases List.mem_append.mp hkv with h2 | h2
      · exact Or.inl ⟨kv, h2, hk⟩
      · rcases List.mem_singleton.mp h2 with rfl
        exact Or.inr hk.symm
    · intro h
      rcases h with ⟨kv, hkv, hk⟩ | hk
      · exact ⟨kv, List.mem_append_left _ hkv, hk⟩
      · exact ⟨(k', v), List.mem_append_right _ (List.mem_singleton.mpr rfl), hk.symm⟩

theorem pyDict_key_mem {α β : Type} [DecidableEq α] (k : α) :
    ∀ (l : List (α × β)) (acc : List (α × β)),
    (∃ kv ∈ l.foldl (fun acc p => pyDictInsert acc p.1 p.2) acc, kv.1 = k) ↔
    (∃ kv ∈ acc, kv.1 = k) ∨ (∃ p ∈ l, p.1 = k) := by
  intro l
  induction l with
  | nil =>
    intro acc
    simp
  | cons p rest ih =>
    intro acc
    rw [List.foldl_cons]
    rw [ih (pyDictInsert acc p.1 p.2)]
    rw [pyDictInsert_key_mem acc p.1 p.2 k]
    constructor
    · intro h
      rcases h with (h2 | h2) | h2
      · exact Or.inl h2
      · exact Or.inr ⟨p, List.mem_cons_self _ _, h2.symm⟩
      · rcases h2 with ⟨q, hq, hqk⟩
        exact Or.inr ⟨q, List.mem_cons_of_mem _ hq, hqk⟩
    · intro h
      rcases h with h2 | ⟨q, hq, hqk⟩
      · exact Or.inl (Or.inl h2)
      · rcases List.mem_cons.mp hq with rfl | h3
        · exact Or.inl (Or.inr hqk.symm)
        · exact Or.inr ⟨q, h3, hqk⟩

theorem seasonRowOf_of_zero (rosters : List Roster) (userKeys : List String)
    (fetch : Nat → Option (List Matchup)) (kv : String × String)
    (h : ∀ ms : List Matchup, weekValue rosters userKeys ms kv.1 = 0) :
    seasonRowOf rosters userKeys fetch kv =
      { user_id := kv.1, display_name := kv.2, weeks := List.replicate 18 0,
        total := 0 } := by
  unfold seasonRowOf
  have hmap : (seasonWeeks.map fun w =>
      weekValue rosters userKeys ((fetch w).getD []) kv.1) = List.replicate 18 0 := by
    have hcg : ∀ w ∈ seasonWeeks,
        weekValue rosters userKeys ((fetch w).getD []) kv.1 = (fun _ => (0 : Int)) w :=
      fun w _ => h _
    rw [List.map_congr_left hcg]
    rfl
  dsimp only
  rw [hmap]
  rfl

theorem processSeason_eq_of_ne (users : List SleeperUser) (rosters : List Roster)
    (fetch : Nat → Option (List Matchup)) (year cy : String)
    (hu : users.isEmpty = false) (hr : rosters.isEmpty = false) (hy : year ≠ cy) :
    processSeason users rosters fetch year cy =
      filter_rows (seasonRowsRaw users rosters fetch) := by
  unfold processSeason
  rw [if_neg (by simp [hu, hr])]
  dsimp only
  rw [if_pos hy]

theorem processSeason_eq_of_eq (users : List SleeperUser) (rosters : List Roster)
    (fetch : Nat → Option (List Matchup)) (year cy : String)
    (hu : users.isEmpty = false) (hr : rosters.isEmpty = false) (hy : year = cy) :
    processSeason users rosters fetch year cy = seasonRowsRaw users rosters fetch := by
  unfold processSeason
  rw [if_neg (by simp [hu, hr])]
  dsimp only
  rw [if_neg (by simp [hy])]

/-- C3 (amended): a user with no resolvable roster ownership is NOT
dropped from the season table: it receives a SeasonRow with zero in
every week column and season total 0.  Only the inactivity filter
(applied when the season year differs from the current calendar year)
removes that all-zero row; for the current season the row is present in
the output. -/
theorem claim3_amended_unresolved_user_rows (users : List SleeperUser)
    (rosters : List Roster) (fetch : Nat → Option (List Matchup)) (year cy : String)
    (u : SleeperUser) (hu : u ∈ users) (hrne : rosters.isEmpty = false)
    (hnoown : ∀ r ∈ rosters, r.owner_id ≠ some u.user_id) :
    (year = cy →
      ∃ row ∈ processSeason users rosters fetch year cy,
        row.user_id = u.user_id ∧ row.weeks = List.replicate 18 0 ∧ row.total = 0) ∧
    (year ≠ cy →
      ∀ row ∈ processSeason users rosters fetch year cy, row.user_id ≠ u.user_id) := by
  have hune : users.isEmpty = false := by
    cases users with
    | nil => cases hu
    | cons a l => rfl
  have hkey : ∃ kv ∈ pyDict (users.map fun v => (v.user_id, v.display_name)),
      kv.1 = u.user_id := by
    unfold pyDict
    refine (pyDict_key_mem u.user_id (users.map fun v => (v.user_id, v.display_name))
      []).mpr ?_
    right
    exact ⟨(u.user_id, u.display_name), List.mem_map.mpr ⟨u, hu, rfl⟩, rfl⟩
  constructor
  · intro hy
    obtain ⟨kv, hkv, hkvid⟩ := hkey
    rw [processSeason_eq_of_eq users rosters fetch year cy hune hrne hy]
    have hwv : ∀ ms : List Matchup, weekValue rosters
        ((pyDict (users.map fun v => (v.user_id, v.display_name))).map Prod.fst)
        ms kv.1 = 0 := by
      intro ms
      rw [hkvid]
      exact weekValue_zero_of_no_owner rosters _ u.user_id hnoown ms
    refine ⟨seasonRowOf rosters
      ((pyDict (users.map fun v => (v.user_id, v.display_name))).map Prod.fst)
      fetch kv, ?_, ?_⟩
    · unfold seasonRowsRaw
      exact List.mem_map.mpr ⟨kv, hkv, rfl⟩
    · rw [seasonRowOf_of_zero rosters _ fetch kv hwv]
      exact ⟨hkvid, rfl, rfl⟩
  · intro hy row hrow hid
    rw [processSeason_eq_of_ne users rosters fetch year cy hune hrne hy] at hrow
    rcases List.mem_filter.mp hrow with ⟨hrowraw, hcount⟩
    unfold seasonRowsRaw at hrowraw
    rcases List.mem_map.mp hrowraw with ⟨kv, hkv, hkve⟩
    have hkvid : kv.1 = u.user_id := by
      rw [← hid, ← hkve]
      rfl
    have hwv : ∀ ms : List Matchup, weekValue rosters
        ((pyDict (users.map fun v => (v.user_id, v.display_name))).map Prod.fst)
        ms kv.1 = 0 := by
      intro ms
      rw [hkvid]
      exact weekValue_zero_of_no_owner rosters _ u.user_id hnoown ms
    rw [← hkve, seasonRowOf_of_zero rosters _ fetch kv hwv] at hcount
    have h18 : zeroWeeks ⟨kv.1, kv.2, List.replicate 18 (0 : Int), 0⟩ = 18 := rfl
    rw [h18] at hcount
    exact absurd hcount (by decide)

/-- A single roster owned by u1; u2 has no roster. -/
def ce3Rosters : List Roster := [{ roster_id := 1, owner_id := some "u1" }]

/-- Week 1 has one matchup of roster 1 scoring 50; no other week has
data. -/
def ce3Fetch : Nat → Option (List Matchup) := fun w =>
  if w = 1 then
    some [{ roster_id := 1, matchup_id := 1, points := 50, starters := [],
            starters_points := [] }]
  else none

/-- C3 counterexample: user u2 has no resolvable roster ownership, yet
the current-season table still contains a SeasonRow for u2 — the
produced table is ["u1", "u2"], refuting the claim that such users are
dropped for any input. -/
theorem claim3_counterexample :
    (∀ r ∈ ce3Rosters, r.owner_id ≠ some "u2") ∧
    (processSeason ceUsers ce3Rosters ce3Fetch "2024" "2024").map SeasonRow.user_id =
      ["u1", "u2"] := by
  refine ⟨by decide, by decide⟩

/-- The roster-less user of the C3 scenarios. -/
def ce3U : SleeperUser := { user_id := "u2", display_name := "Bob" }

/-- Witness for the amended C3: at the concrete scenario, u2's all-zero
row is present for the current season and absent (filtered) for a past
season. -/
theorem claim3_witness :
    (∃ row ∈ processSeason ceUsers ce3Rosters ce3Fetch "2024" "2024",
      row.user_id = ce3U.user_id ∧ row.weeks = List.replicate 18 0 ∧ row.total = 0) ∧
    (∀ row ∈ processSeason ceUsers ce3Rosters ce3Fetch "2023" "2024",
      row.user_id ≠ ce3U.user_id) := by
  refine ⟨?_, ?_⟩
  · exact (claim3_amended_unresolved_user_rows ceUsers ce3Rosters ce3Fetch "2024" "2024"
      ce3U (by decide) (by decide) (by decide)).1 rfl
  · exact (claim3_amended_unresolved_user_rows ceUsers ce3Rosters ce3Fetch "2023" "2024"
      ce3U (by decide) (by decide) (by decide)).2 (by decide)

/-! Lemmas for the week reduction of the margin pipeline (C5). -/

theorem foldlMax_spec : ∀ (rest : List MarginEntry) (e : MarginEntry),
    (rest.foldl (fun best x => if x.margin > best.margin then x else best) e) ∈
      e :: rest ∧
    ∀ x ∈ e :: rest, x.margin ≤
      (rest.foldl (fun best x => if x.margin > best.margin then x else best) e).margin := by
  intro rest
  induction rest with
  | nil =>
    intro e
    refine ⟨List.mem_singleton.mpr rfl, ?_⟩
    intro x hx
    rcases List.mem_singleton.mp hx with rfl
    exact le_refl _
  | cons y rest ih =>
    intro e
    rw [List.foldl_cons]
    rcases ih (if y.margin > e.margin then y else e) with ⟨hmem, hbd⟩
    constructor
    · rcases List.mem_cons.mp hmem with h | h
      · rw [h]
        by_cases hc : y.margin > e.margin
        · rw [if_pos hc]
          exact List.mem_cons_of_mem _ (List.mem_cons_self _ _)
        · rw [if_neg hc]
          exact List.mem_cons_self _ _
      · exact List.mem_cons_of_mem _ (List.mem_cons_of_mem _ h)
    · intro x hx
      rcases List.mem_cons.mp hx with rfl | hx2
      · have he2 : x.margin ≤ (if y.margin > x.margin then y else x).margin := by
          by_cases hc : y.margin > x.margin
          · rw [if_pos hc]
            exact le_of_lt hc
          · rw [if_neg hc]
        exact le_trans he2 (hbd _ (List.mem_cons_self _ _))
      · rcases List.mem_cons.mp hx2 with rfl | hx3
        · have he2 : x.margin ≤ (if x.margin > e.margin then x else e).margin := by
            by_cases hc : x.margin > e.margin
            · rw [if_pos hc]
            · rw [if_neg hc]
              exact le_of_not_lt hc
          exact le_trans he2 (hbd _ (List.mem_cons_self _ _))
        · exact hbd _ (List.mem_cons_of_mem _ hx3)

theorem foldlMin_spec : ∀ (rest : List MarginEntry) (e : MarginEntry),
    (rest.foldl (fun best x => if x.margin < best.margin then x else best) e) ∈
      e :: rest ∧
    ∀ x ∈ e :: rest,
      (rest.foldl (fun best x => if x.margin < best.margin then x else best) e).margin ≤
        x.margin := by
  intro rest
  induction rest with
  | nil =>
    intro e
    refine ⟨List.mem_singleton.mpr rfl, ?_⟩
    intro x hx
    rcases List.mem_singleton.mp hx with rfl
    exact le_refl _
  | cons y rest ih =>
    intro e
    rw [List.foldl_cons]
    rcases ih (if y.margin < e.margin then y else e) with ⟨hmem, hbd⟩
    constructor
    · rcases List.mem_cons.mp hmem with h | h
      · rw [h]
        by_cases hc : y.margin < e.margin
        · rw [if_pos hc]
          exact List.mem_cons_of_mem _ (List.mem_cons_self _ _)
        · rw [if_neg hc]
          exact List.mem_cons_self _ _
      · exact List.mem_cons_of_mem _ (List.mem_cons_of_mem _ h)
    · intro x hx
      rcases List.mem_cons.mp hx with rfl | hx2
      · have he2 : (if y.margin < x.margin then y else x).margin ≤ x.margin := by
          by_cases hc : y.margin < x.margin
          · rw [if_pos hc]
            exact le_of_lt hc
          · rw [if_neg hc]
        exact le_trans (hbd _ (List.mem_cons_self _ _)) he2
      · rcases List.mem_cons.mp hx2 with rfl | hx3
        · have he2 : (if x.margin < e.margin then x else e).margin ≤ x.margin := by
            by_cases hc : x.margin < e.margin
            · rw [if_pos hc]
            · rw [if_neg hc]
              exact le_of_not_lt hc
          exact le_trans (hbd _ (List.mem_cons_self _ _)) he2
        · exact hbd _ (List.mem_cons_of_mem _ hx3)

theorem maxByMargin_spec (l : List MarginEntry) (m : MarginEntry)
    (h : maxByMargin l = some m) : m ∈ l ∧ ∀ e ∈ l, e.margin ≤ m.margin := by
  cases l with
  | nil => exact absurd h (by simp [maxByMargin])
  | cons e rest =>
    have hm : m = rest.foldl (fun best x => if x.margin > best.margin then x else best) e := by
      unfold maxByMargin at h
      injection h with h2
      exact h2.symm
    rw [hm]
    exact foldlMax_spec rest e

theorem minByMargin_spec (l : List MarginEntry) (m : MarginEntry)
    (h : minByMargin l = some m) : m ∈ l ∧ ∀ e ∈ l, m.margin ≤ e.margin := by
  cases l with
  | nil => exact absurd h (by simp [minByMargin])
  | cons e rest =>
    have hm : m = rest.foldl (fun best x => if x.margin < best.margin then x else best) e := by
      unfold minByMargin at h
      injection h with h2
      exact h2.symm
    rw [hm]
    exact foldlMin_spec rest e

theorem marginsOfGroups_mem (um : List (String × String)) (rm : List (Nat × String))
    (year week : Nat) :
    ∀ (gl : List (Nat × List Matchup)) (l : List MarginEntry),
    marginsOfGroups um rm year week gl = some l →
    ∀ e ∈ l, ∃ gid t1 t2, (gid, [t1, t2]) ∈ gl ∧
      e = pairEntry um rm year week t1 t2 := by
  intro gl
  induction gl with
  | nil =>
    intro l h e he
    have : l = [] := by
      unfold marginsOfGroups at h
      injection h with h2
      exact h2.symm
    rw [this] at he
    cases he
  | cons g rest ih =>
    intro l h e he
    rcases g with ⟨gid, teams⟩
    rcases teams with _ | ⟨t1, teams1⟩
    · unfold marginsOfGroups at h
      dsimp only at h
      rcases ih l h e he with ⟨gid2, s1, s2, hmem, hpe⟩
      exact ⟨gid2, s1, s2, List.mem_cons_of_mem _ hmem, hpe⟩
    · rcases teams1 with _ | ⟨t2, teams2⟩
      · unfold marginsOfGroups at h
        dsimp only at h
        rcases ih l h e he with ⟨gid2, s1, s2, hmem, hpe⟩
        exact ⟨gid2, s1, s2, List.mem_cons_of_mem _ hmem, hpe⟩
      · rcases teams2 with _ | ⟨t3, teams3⟩
        · unfold marginsOfGroups at h
          dsimp only at h
          by_cases hz : (pairEntry um rm year week t1 t2).winner_points = 0 ∧
              (pairEntry um rm year week t1 t2).loser_points = 0
          · rw [if_pos hz] at h
            exact absurd h (by simp)
          · rw [if_neg hz] at h
            rcases Option.map_eq_some'.mp h with ⟨l2, hl2, hle⟩
            rw [← hle] at he
            rcases List.mem_cons.mp he with rfl | he2
            · exact ⟨gid, t1, t2, List.mem_cons_self _ _, rfl⟩
            · rcases ih l2 hl2 e he2 with ⟨gid2, s1, s2, hmem, hpe⟩
              exact ⟨gid2, s1, s2, List.mem_cons_of_mem _ hmem, hpe⟩
        · unfold marginsOfGroups at h
          dsimp only at h
          rcases ih l h e he with ⟨gid2, s1, s2, hmem, hpe⟩
          exact ⟨gid2, s1, s2, List.mem_cons_of_mem _ hmem, hpe⟩

/-- The expected margin record of the 100-40 pairing in week 1 of 2024. -/
def ce5Entry : MarginEntry :=
  { year := 2024, week := 1, winner := "Alice", loser := "Bob",
    winner_points := 100, loser_points := 40, margin := 60 }

/-- League data: week 1 has exactly one valid pairing, 100 vs 40. -/
def ce5Fetch : Nat → Option (List Matchup) := fun w =>
  if w = 1 then some [mA100, mB40] else none

/-- Four users for the tie-break scenario. -/
def ceUm4 : List (String × String) :=
  [("u1", "Alice"), ("u2", "Bob"), ("u3", "Carol"), ("u4", "Dave")]

/-- Four rosters for the tie-break scenario. -/
def ceRm4 : List (Nat × String) := [(1, "u1"), (2, "u2"), (3, "u3"), (4, "u4")]

/-- Week 1 of the tie-break scenario: two pairings, both with margin 20;
pairing 1 (60 vs 40) is encountered first. -/
def ce5TieFetch : Nat → Option (List Matchup) := fun w =>
  if w = 1 then
    some [{ roster_id := 1, matchup_id := 1, points := 60, starters := [],
            starters_points := [] },
          { roster_id := 2, matchup_id := 1, points := 40, starters := [],
            starters_points := [] },
          { roster_id := 3, matchup_id := 2, points := 100, starters := [],
            starters_points := [] },
          { roster_id := 4, matchup_id := 2, points := 80, starters := [],
            starters_points := [] }]
  else none

/-- The first-encountered pairing's record in the tie-break scenario. -/
def ce5TieEntry : MarginEntry :=
  { year := 2024, week := 1, winner := "Alice", loser := "Bob",
    winner_points := 60, loser_points := 40, margin := 20 }

/-- Week 1 of the bye scenario: pairing 1 is complete (60 vs 40), while
pairing 2 has only one side and must be discarded. -/
def ce5ByeFetch : Nat → Option (List Matchup) := fun w =>
  if w = 1 then
    some [{ roster_id := 1, matchup_id := 1, points := 60, starters := [],
            starters_points := [] },
          { roster_id := 2, matchup_id := 1, points := 40, starters := [],
            starters_points := [] },
          { roster_id := 3, matchup_id := 2, points := 100, starters := [],
            starters_points := [] }]
  else none

/-- C5: every margins-list entry comes from a pairing group of size
exactly 2 and equals its pairEntry; pairEntry gives the win to the
higher-scoring side with ties to the first-listed side and margin
|p1 - p2|; max/min by margin select a member attaining the bound, with
ties broken in favor of the first-encountered entry (Python max/min
replace only on strict improvement); and on the concrete weeks: one
100-40 pairing yields exactly one largest and one smallest record, both
equal with margin 60; two equal-margin pairings select the
first-encountered one for both records; an incomplete pairing (size 1)
is discarded. -/
theorem claim5_week_reduction :
    (∀ (um : List (String × String)) (rm : List (Nat × String)) (year week : Nat)
      (gl : List (Nat × List Matchup)) (l : List MarginEntry),
      marginsOfGroups um rm year week gl = some l →
      ∀ e ∈ l, ∃ gid t1 t2, (gid, [t1, t2]) ∈ gl ∧
        e = pairEntry um rm year week t1 t2) ∧
    (∀ (um : List (String × String)) (rm : List (Nat × String)) (year week : Nat)
      (t1 t2 : Matchup),
      (pairEntry um rm year week t1 t2).margin = |t1.points - t2.points| ∧
      (t1.points ≥ t2.points →
        pairEntry um rm year week t1 t2 =
          { year := year, week := week,
            winner := marginOwnerName um rm t1.roster_id,
            loser := marginOwnerName um rm t2.roster_id,
            winner_points := t1.points, loser_points := t2.points,
            margin := |t1.points - t2.points| }) ∧
      (¬ t1.points ≥ t2.points →
        pairEntry um rm year week t1 t2 =
          { year := year, week := week,
            winner := marginOwnerName um rm t2.roster_id,
            loser := marginOwnerName um rm t1.roster_id,
            winner_points := t2.points, loser_points := t1.points,
            margin := |t1.points - t2.points| })) ∧
    (∀ (l : List MarginEntry) (m : MarginEntry),
      maxByMargin l = some m → m ∈ l ∧ ∀ e ∈ l, e.margin ≤ m.margin) ∧
    (∀ (l : List MarginEntry) (m : MarginEntry),
      minByMargin l = some m → m ∈ l ∧ ∀ e ∈ l, m.margin ≤ e.margin) ∧
    processLeague true ceUm ceRm ce5Fetch 2024 emptyAcc =
      { processedWeeks := [(2024, 1)], largest := [ce5Entry], smallest := [ce5Entry] } ∧
    processLeague true ceUm4 ceRm4 ce5TieFetch 2024 emptyAcc =
      { processedWeeks := [(2024, 1)], largest := [ce5TieEntry],
        smallest := [ce5TieEntry] } ∧
    processLeague true ceUm4 ceRm4 ce5ByeFetch 2024 emptyAcc =
      { processedWeeks := [(2024, 1)], largest := [ce5TieEntry],
        smallest := [ce5TieEntry] } := by
  refine ⟨marginsOfGroups_mem, ?_, maxByMargin_spec, minByMargin_spec,
    by decide, by decide, by decide⟩
  intro um rm year week t1 t2
  refine ⟨?_, ?_, ?_⟩
  · by_cases h : t1.points ≥ t2.points
    · unfold pairEntry
      rw [if_pos h]
    · unfold pairEntry
      rw [if_neg h]
  · intro h
    unfold pairEntry
    rw [if_pos h]
  · intro h
    unfold pairEntry
    rw [if_neg h]

/-- Witness for C5 at the concrete 100-40 week: the single margins entry
comes from the unique size-2 group; 100 beats 40 with margin 60; and the
singleton margins list has that entry as both its maximum and minimum. -/
theorem claim5_witness :
    (∃ gid t1 t2, (gid, [t1, t2]) ∈ groupByMatchupId [mA100, mB40] ∧
      ce5Entry = pairEntry ceUm ceRm 2024 1 t1 t2) ∧
    pairEntry ceUm ceRm 2024 1 mA100 mB40 =
      { year := 2024, week := 1, winner := marginOwnerName ceUm ceRm mA100.roster_id,
        loser := marginOwnerName ceUm ceRm mB40.roster_id,
        winner_points := mA100.points, loser_points := mB40.points,
        margin := |mA100.points - mB40.points| } ∧
    (ce5Entry ∈ [ce5Entry] ∧ ∀ e ∈ [ce5Entry], e.margin ≤ ce5Entry.margin) ∧
    (ce5Entry ∈ [ce5Entry] ∧ ∀ e ∈ [ce5Entry], ce5Entry.margin ≤ e.margin) := by
  refine ⟨?_, ?_, ?_, ?_⟩
  · exact claim5_week_reduction.1 ceUm ceRm 2024 1 (groupByMatchupId [mA100, mB40])
      [ce5Entry] (by decide) ce5Entry (by decide)
  · exact (claim5_week_reduction.2.1 ceUm ceRm 2024 1 mA100 mB40).2.1 (by decide)
  · exact claim5_week_reduction.2.2.1 [ce5Entry] ce5Entry (by decide)
  · exact claim5_week_reduction.2.2.2.1 [ce5Entry] ce5Entry (by decide)

/-! Lemmas for the full-rewrite vs incremental publish behavior (C6). -/

/-- C6: `process_all_data` is set exactly when a margin tab is absent;
with it set the ledger week-filter is bypassed (an already-ledgered week
is still recomputed and recorded) and publishing is a full rewrite of
exactly the accumulated data; with both tabs present an already-ledgered
week is skipped and publishing appends exactly the accumulated rows
whose (Year, Week) key is absent from the destination's current
contents; and in both cases what is published is the accumulated list
sorted by (Year, Week) ascending (a permutation of it, sorted). -/
theorem claim6_publish_modes :
    (∀ sheets : SheetsState, marginProcessAll sheets = true ↔
      (sheets.largestSheet = none ∨ sheets.smallestSheet = none)) ∧
    (∀ (um : List (String × String)) (rm : List (Nat × String))
      (fetch : Nat → Option (List Matchup)) (year : Nat) (st : RunAcc) (w : Nat)
      (lg sm : MarginEntry),
      weekOutcome um rm fetch year w = WeekResult.record lg sm →
      processLeagueWeek true um rm fetch year (st, false) w =
        ({ processedWeeks := st.processedWeeks ++ [(year, w)],
           largest := st.largest ++ [lg],
           smallest := st.smallest ++ [sm] }, false)) ∧
    (∀ (um : List (String × String)) (rm : List (Nat × String))
      (fetch : Nat → Option (List Matchup)) (year : Nat) (st : RunAcc) (w : Nat),
      (year, w) ∈ st.processedWeeks →
      processLeagueWeek false um rm fetch year (st, false) w = (st, false)) ∧
    (∀ (sheet data : List MarginEntry), upload_results true sheet data = data) ∧
    (∀ (sheet data : List MarginEntry), ∃ rest,
      upload_results false sheet data = sheet ++ rest ∧
      (∀ e ∈ rest, e ∈ data ∧ entryKey e ∉ sheet.map entryKey) ∧
      (∀ e ∈ data, entryKey e ∉ sheet.map entryKey → e ∈ rest)) ∧
    (∀ l : List MarginEntry,
      List.Sorted marginLE (sortMargins l) ∧ List.Perm (sortMargins l) l) ∧
    (∀ (cfg : List (Nat × Option MarginLeague)) (P : WeekLedger) (sheets : SheetsState),
      (marginFinal cfg P sheets).largest.isEmpty = false →
      ((marginRun cfg P sheets).2).largestSheet =
        some (upload_results (marginProcessAll sheets) (sheets.largestSheet.getD [])
          (sortMargins (marginFinal cfg P sheets).largest))) ∧
    (∀ (cfg : List (Nat × Option MarginLeague)) (P : WeekLedger) (sheets : SheetsState),
      (marginFinal cfg P sheets).smallest.isEmpty = false →
      ((marginRun cfg P sheets).2).smallestSheet =
        some (upload_results (marginProcessAll sheets) (sheets.smallestSheet.getD [])
          (sortMargins (marginFinal cfg P sheets).smallest))) := by
  refine ⟨?_, ?_, ?_, ?_, ?_, ?_, ?_, ?_⟩
  · intro sheets
    unfold marginProcessAll
    rcases sheets with ⟨ls, ss⟩
    cases ls <;> cases ss <;> simp
  · intro um rm fetch year st w lg sm hout
    unfold processLeagueWeek
    simp [hout]
  · intro um rm fetch year st w hmem
    unfold processLeagueWeek
    simp [hmem]
  · intro sheet data
    rfl
  · intro sheet data
    refine ⟨data.filter fun e => decide (entryKey e ∉ sheet.map entryKey), rfl, ?_, ?_⟩
    · intro e he
      rcases List.mem_filter.mp he with ⟨h1, h2⟩
      exact ⟨h1, of_decide_eq_true h2⟩
    · intro e he hk
      exact List.mem_filter.mpr ⟨he, decide_eq_true hk⟩
  · intro l
    exact ⟨List.sorted_insertionSort marginLE l, List.perm_insertionSort marginLE l⟩
  · intro cfg P sheets h
    simp only [marginRun, h]
    split <;> rfl
  · intro cfg P sheets h
    simp only [marginRun, h]
    split <;> split <;> first | rfl | simp_all

/-- An accumulator whose ledger already contains week 1 of 2024. -/
def st6 : RunAcc := { processedWeeks := [(2024, 1)], largest := [], smallest := [] }

/-- Witness for C6 at concrete inputs: with a tab absent the flag is set
and a ledgered week is recomputed anyway; with both tabs present the
ledgered week is skipped; full rewrite publishes exactly the data;
incremental publishing appends exactly the unseen keys; the published
list is sorted; and the run-level publish equation holds on the concrete
ce4 configuration. -/
theorem claim6_witness :
    marginProcessAll ce4Sheets0 = true ∧
    processLeagueWeek true ceUm ceRm ce5Fetch 2024 (st6, false) 1 =
      ({ processedWeeks := [(2024, 1), (2024, 1)], largest := [ce5Entry],
         smallest := [ce5Entry] }, false) ∧
    processLeagueWeek false ceUm ceRm ce5Fetch 2024 (st6, false) 1 = (st6, false) ∧
    upload_results true [ce5Entry] [ce5TieEntry] = [ce5TieEntry] ∧
    (∃ rest, upload_results false [ce5Entry] [ce5Entry, ce5TieEntry] =
        [ce5Entry] ++ rest ∧
      (∀ e ∈ rest, e ∈ [ce5Entry, ce5TieEntry] ∧
        entryKey e ∉ [ce5Entry].map entryKey) ∧
      (∀ e ∈ [ce5Entry, ce5TieEntry], entryKey e ∉ [ce5Entry].map entryKey →
        e ∈ rest)) ∧
    (List.Sorted marginLE (sortMargins [ce5Entry, ce5TieEntry]) ∧
      List.Perm (sortMargins [ce5Entry, ce5TieEntry]) [ce5Entry, ce5TieEntry]) ∧
    ((marginRun ce4Cfg ce4Ledger0 w4Sheets0).2).largestSheet =
      some (upload_results (marginProcessAll w4Sheets0) (w4Sheets0.largestSheet.getD [])
        (sortMargins (marginFinal ce4Cfg ce4Ledger0 w4Sheets0).largest)) := by
  refine ⟨(claim6_publish_modes.1 ce4Sheets0).mpr (Or.inl rfl), ?_, ?_, ?_, ?_, ?_, ?_⟩
  · have h := claim6_publish_modes.2.1 ceUm ceRm ce5Fetch 2024 st6 1 ce5Entry ce5Entry
      (by decide)
    exact h
  · exact claim6_publish_modes.2.2.1 ceUm ceRm ce5Fetch 2024 st6 1 (by decide)
  · exact claim6_publish_modes.2.2.2.1 [ce5Entry] [ce5TieEntry]
  · exact claim6_publish_modes.2.2.2.2.1 [ce5Entry] [ce5Entry, ce5TieEntry]
  · exact claim6_publish_modes.2.2.2.2.2.1 [ce5Entry, ce5TieEntry]
  · exact claim6_publish_modes.2.2.2.2.2.2.1 ce4Cfg ce4Ledger0 w4Sheets0 (by decide)

/-- A single user for the inactivity-filter scenario. -/
def ce7Users : List SleeperUser := [{ user_id := "u1", display_name := "Alice" }]

/-- Weeks 1..12 have a single matchup of roster 1 scoring 10; weeks
13..18 have no data, so exactly 6 week columns stay zero. -/
def ce7Fetch : Nat → Option (List Matchup) := fun w =>
  if w ≤ 12 then
    some [{ roster_id := 1, matchup_id := 1, points := 10, starters := [],
            starters_points := [] }]
  else none

/-- The season row the ce7 scenario produces: 12 weeks at 10 points and
6 weeks at zero. -/
def ce7Row : SeasonRow :=
  { user_id := "u1", display_name := "Alice",
    weeks := List.replicate 12 10 ++ List.replicate 6 0, total := 120 }

/-- C7: `filter_rows` keeps exactly the rows with at most 5 zero-valued
week columns; `process_season` applies it exactly when the season year
differs from the current calendar year; and on the concrete season with
exactly 6 zero weeks the row is included for the current season and
excluded for a past season. -/
theorem claim7_inactivity_filter :
    (∀ (rows : List SeasonRow) (r : SeasonRow),
      r ∈ filter_rows rows ↔ r ∈ rows ∧ zeroWeeks r ≤ 5) ∧
    (∀ (users : List SleeperUser) (rosters : List Roster)
      (fetch : Nat → Option (List Matchup)) (year cy : String),
      users.isEmpty = false → rosters.isEmpty = false →
      (year ≠ cy → processSeason users rosters fetch year cy =
        filter_rows (seasonRowsRaw users rosters fetch)) ∧
      (year = cy → processSeason users rosters fetch year cy =
        seasonRowsRaw users rosters fetch)) ∧
    processSeason ce7Users ce3Rosters ce7Fetch "2024" "2024" = [ce7Row] ∧
    zeroWeeks ce7Row = 6 ∧
    processSeason ce7Users ce3Rosters ce7Fetch "2023" "2024" = [] := by
  refine ⟨?_, ?_, by decide, by decide, by decide⟩
  · intro rows r
    unfold filter_rows
    rw [List.mem_filter]
    simp
  · intro users rosters fetch year cy hu hr
    exact ⟨fun hy => processSeason_eq_of_ne users rosters fetch year cy hu hr hy,
      fun hy => processSeason_eq_of_eq users rosters fetch year cy hu hr hy⟩

/-- Witness for C7: the filter characterization at the 6-zero row and
the filtered-season equation at the concrete past-season inputs. -/
theorem claim7_witness :
    (ce7Row ∈ filter_rows [ce7Row] ↔ (ce7Row ∈ [ce7Row] ∧ zeroWeeks ce7Row ≤ 5)) ∧
    processSeason ce7Users ce3Rosters ce7Fetch "2023" "2024" =
      filter_rows (seasonRowsRaw ce7Users ce3Rosters ce7Fetch) :=
  ⟨claim7_inactivity_filter.1 [ce7Row] ce7Row,
    (claim7_inactivity_filter.2.1 ce7Users ce3Rosters ce7Fetch "2023" "2024"
      (by decide) (by decide)).1 (by decide)⟩

/-! Lemmas for week defaults and the season total (C8). -/

theorem weekValue_zero_of_unresolved (rosters : List Roster) (userKeys : List String)
    (uid : String) :
    ∀ (ms : List Matchup),
    (∀ m ∈ ms, resolveOwner rosters m.roster_id ≠ some uid) →
    weekValue rosters userKeys ms uid = 0 := by
  have hgen : ∀ (ms : List Matchup) (acc : Int),
      (∀ m ∈ ms, resolveOwner rosters m.roster_id ≠ some uid) →
      ms.foldl (fun acc m =>
        match resolveOwner rosters m.roster_id with
        | some v => if v ≠ "" ∧ v ∈ userKeys ∧ v = uid then m.points else acc
        | none => acc) acc = acc := by
    intro ms
    induction ms with
    | nil => intro acc _; rfl
    | cons m rest ih =>
      intro acc h
      rw [List.foldl_cons]
      have hone : (match resolveOwner rosters m.roster_id with
          | some v => if v ≠ "" ∧ v ∈ userKeys ∧ v = uid then m.points else acc
          | none => acc) = acc := by
        rcases hro : resolveOwner rosters m.roster_id with _ | v
        · rfl
        · dsimp only
          rw [if_neg]
          intro hc
          apply h m (List.mem_cons_self _ _)
          rw [← hc.2.2]
          exact hro
      rw [hone]
      exact ih acc fun m2 hm2 => h m2 (List.mem_cons_of_mem _ hm2)
  intro ms h
  exact hgen ms 0 h

theorem seasonRowOf_weeks_getD (rosters : List Roster) (userKeys : List String)
    (fetch : Nat → Option (List Matchup)) (kv : String × String) (i : Nat)
    (hi : i < 18) :
    (seasonRowOf rosters userKeys fetch kv).weeks.getD i 0 =
      weekValue rosters userKeys ((fetch (1 + i)).getD []) kv.1 := by
  unfold seasonRowOf
  dsimp only
  unfold List.getD
  rw [List.get?_eq_getElem?, List.getElem?_map]
  have hr : seasonWeeks[i]? = some (1 + i) := by
    unfold seasonWeeks
    rw [List.getElem?_range']
    · simp
    · exact hi
  rw [hr]
  rfl

theorem mem_processSeason_raw (users : List SleeperUser) (rosters : List Roster)
    (fetch : Nat → Option (List Matchup)) (year cy : String) (row : SeasonRow)
    (hrow : row ∈ processSeason users rosters fetch year cy) :
    row ∈ seasonRowsRaw users rosters fetch := by
  unfold processSeason at hrow
  split at hrow
  · cases hrow
  · dsimp only at hrow
    split at hrow
    · exact (List.mem_filter.mp hrow).1
    · exact hrow

/-- C8: every row of the season table has exactly 18 week columns, its
Season Total equals the exact sum of those 18 values, a week with no
matchup data contributes 0, and more generally a week in which no
matchup resolves to the row's user contributes 0. -/
theorem claim8_week_defaults_total (users : List SleeperUser) (rosters : List Roster)
    (fetch : Nat → Option (List Matchup)) (year cy : String) :
    ∀ row ∈ processSeason users rosters fetch year cy,
      row.weeks.length = 18 ∧ row.total = row.weeks.sum ∧
      (∀ i : Nat, i < 18 → (fetch (1 + i)).getD [] = [] →
        row.weeks.getD i 0 = 0) ∧
      (∀ i : Nat, i < 18 →
        (∀ m ∈ (fetch (1 + i)).getD [],
          resolveOwner rosters m.roster_id ≠ some row.user_id) →
        row.weeks.getD i 0 = 0) := by
  intro row hrow
  have hraw := mem_processSeason_raw users rosters fetch year cy row hrow
  unfold seasonRowsRaw at hraw
  dsimp only at hraw
  rcases List.mem_map.mp hraw with ⟨kv, hkv, hkve⟩
  rw [← hkve]
  refine ⟨?_, rfl, ?_, ?_⟩
  · unfold seasonRowOf
    dsimp only
    rw [List.length_map]
    rfl
  · intro i hi hempty
    rw [seasonRowOf_weeks_getD rosters _ fetch kv i hi, hempty]
    rfl
  · intro i hi hunres
    rw [seasonRowOf_weeks_getD rosters _ fetch kv i hi]
    exact weekValue_zero_of_unresolved rosters _ kv.1 _ hunres

/-- Witness for C8 at the concrete ce7 season: its row has 18 week
columns summing to the Season Total, and week 18 (no matchup data)
contributes 0. -/
theorem claim8_witness :
    ce7Row ∈ processSeason ce7Users ce3Rosters ce7Fetch "2024" "2024" ∧
    ce7Row.weeks.length = 18 ∧ ce7Row.total = ce7Row.weeks.sum ∧
    ((ce7Fetch (1 + 17)).getD [] = [] ∧ ce7Row.weeks.getD 17 0 = 0) := by
  have hmem : ce7Row ∈ processSeason ce7Users ce3Rosters ce7Fetch "2024" "2024" := by
    decide
  have h := claim8_week_defaults_total ce7Users ce3Rosters ce7Fetch "2024" "2024"
    ce7Row hmem
  exact ⟨hmem, h.1, h.2.1, by decide, h.2.2.1 17 (by decide) (by decide)⟩

/-! Lemmas for the processed-week ledger file round trip (C9). -/

theorem loadProcessedWeeks_go : ∀ (l : List String) (acc : List String),
    l.foldl (fun acc line =>
      if pyStrip line ≠ "" then acc ++ [pyStrip line] else acc) acc =
    acc ++ loadProcessedWeeks l := by
  intro l
  induction l with
  | nil =>
    intro acc
    exact (List.append_nil acc).symm
  | cons x rest ih =>
    intro acc
    rw [List.foldl_cons]
    rw [ih]
    have hx : loadProcessedWeeks (x :: rest) =
        (if pyStrip x ≠ "" then [pyStrip x] else []) ++ loadProcessedWeeks rest := by
      unfold loadProcessedWeeks
      rw [List.foldl_cons, ih]
      split <;> rfl
    rw [hx]
    split
    · rw [List.append_assoc]
    · rw [List.nil_append]

theorem loadProcessedWeeks_append (a b : List String) :
    loadProcessedWeeks (a ++ b) = loadProcessedWeeks a ++ loadProcessedWeeks b := by
  unfold loadProcessedWeeks
  rw [List.foldl_append]
  rw [show (a.foldl (fun acc line =>
    if pyStrip line ≠ "" then acc ++ [pyStrip line] else acc) []) =
    loadProcessedWeeks a from rfl]
  exact loadProcessedWeeks_go b (loadProcessedWeeks a)

theorem loadProcessedWeeks_singleton (k : String) (htrim : pyStrip k = k)
    (hne : k ≠ "") : loadProcessedWeeks [k] = [k] := by
  unfold loadProcessedWeeks
  rw [List.foldl_cons]
  rw [htrim]
  rw [if_pos hne]
  rfl

/-- C9: the ledger round-trips.  After `save_processed_week` the key is
in the in-memory set (`is_week_processed` is true in the same run) and
in the set loaded from the file in a later run; a repeated save only
appends a duplicate line, and the loaded set-based membership is
unchanged by the duplicate.  (The hypotheses say the key "year,week" has
no surrounding whitespace and is non-empty, which `str.strip` of the
written line preserves.) -/
theorem claim9_ledger_roundtrip (fileLines memSet : List String) (year : String)
    (week : Nat) (htrim : pyStrip (weekKeyStr year week) = weekKeyStr year week)
    (hne : weekKeyStr year week ≠ "") :
    isWeekProcessed (saveProcessedWeek fileLines memSet year week).2 year week ∧
    weekKeyStr year week ∈
      loadProcessedWeeks (saveProcessedWeek fileLines memSet year week).1 ∧
    (saveProcessedWeek (saveProcessedWeek fileLines memSet year week).1
        (saveProcessedWeek fileLines memSet year week).2 year week).1 =
      fileLines ++ [weekKeyStr year week, weekKeyStr year week] ∧
    (∀ k : String,
      k ∈ loadProcessedWeeks (fileLines ++ [weekKeyStr year week]) ↔
      k ∈ loadProcessedWeeks
        (fileLines ++ [weekKeyStr year week, weekKeyStr year week])) := by
  refine ⟨?_, ?_, ?_, ?_⟩
  · unfold isWeekProcessed saveProcessedWeek
    exact List.mem_append_right _ (List.mem_singleton.mpr rfl)
  · unfold saveProcessedWeek
    rw [loadProcessedWeeks_append fileLines [weekKeyStr year week]]
    rw [loadProcessedWeeks_singleton _ htrim hne]
    exact List.mem_append_right _ (List.mem_singleton.mpr rfl)
  · unfold saveProcessedWeek
    rw [List.append_assoc]
    rfl
  · intro k
    rw [loadProcessedWeeks_append fileLines [weekKeyStr year week]]
    rw [loadProcessedWeeks_append fileLines
      [weekKeyStr year week, weekKeyStr year week]]
    rw [loadProcessedWeeks_singleton _ htrim hne]
    have h2 : loadProcessedWeeks [weekKeyStr year week, weekKeyStr year week] =
        [weekKeyStr year week, weekKeyStr year week] := by
      unfold loadProcessedWeeks
      simp [htrim, hne]
    rw [h2]
    constructor
    · intro hk
      rcases List.mem_append.mp hk with h | h
      · exact List.mem_append_left _ h
      · rcases List.mem_singleton.mp h with rfl
        exact List.mem_append_right _ (List.mem_cons_self _ _)
    · intro hk
      rcases List.mem_append.mp hk with h | h
      · exact List.mem_append_left _ h
      · rcases List.mem_cons.mp h with rfl | h2
        · exact List.mem_append_right _ (List.mem_singleton.mpr rfl)
        · rcases List.mem_singleton.mp h2 with rfl
          exact List.mem_append_right _ (List.mem_singleton.mpr rfl)

/-- Witness for C9 at the concrete key "2023,5" over a file already
holding "2022,9": stripping preserves the key, membership holds in the
same run and after reload, and a duplicate save leaves membership
unchanged. -/
theorem claim9_witness :
    pyStrip (weekKeyStr "2023" 5) = weekKeyStr "2023" 5 ∧
    weekKeyStr "2023" 5 ≠ "" ∧
    isWeekProcessed (saveProcessedWeek ["2022,9"] ["2022,9"] "2023" 5).2 "2023" 5 ∧
    weekKeyStr "2023" 5 ∈
      loadProcessedWeeks (saveProcessedWeek ["2022,9"] ["2022,9"] "2023" 5).1 := by
  have h := claim9_ledger_roundtrip ["2022,9"] ["2022,9"] "2023" 5 (by decide) (by decide)
  exact ⟨by decide, by decide, h.1, h.2.1⟩

/-! Lemmas and scenarios for starter misalignment (C10). -/

theorem hsLoop_truncates (rm : List (Nat × String)) (um : List (String × String))
    (pm : List (String × Player)) (m : Matchup) (post : List Matchup)
    (hm : starterMisaligned m = true) :
    ∀ (pre : List Matchup), (∀ m2 ∈ pre, starterMisaligned m2 = false) →
    ∀ best, hsLoop rm um pm (pre ++ m :: post) best = hsLoop rm um pm pre best := by
  intro pre
  induction pre with
  | nil =>
    intro _ best
    rw [List.nil_append]
    unfold hsLoop
    rw [hm]
    rfl
  | cons x rest ih =>
    intro hpre best
    rw [List.cons_append]
    unfold hsLoop
    rw [hpre x (List.mem_cons_self _ _)]
    exact ih (fun m2 hm2 => hpre m2 (List.mem_cons_of_mem _ hm2)) _

theorem muLoop_error (rm : List (Nat × String)) (um : List (String × String))
    (pm : List (String × Player)) (m : Matchup) (post : List Matchup)
    (hm : starterMisaligned m = true) :
    ∀ (pre : List Matchup), (∀ m2 ∈ pre, starterMisaligned m2 = false) →
    ∀ best, muLoop rm um pm (pre ++ m :: post) best = Except.error "IndexError" := by
  intro pre
  induction pre with
  | nil =>
    intro _ best
    rw [List.nil_append]
    unfold muLoop
    rw [hm]
    rfl
  | cons x rest ih =>
    intro hpre best
    rw [List.cons_append]
    unfold muLoop
    rw [hpre x (List.mem_cons_self _ _)]
    exact ih (fun m2 hm2 => hpre m2 (List.mem_cons_of_mem _ hm2)) _

/-- C10 (amended): a matchup whose `starters` list is longer than its
`starters_points` list makes the index-aligned starter evaluation raise
IndexError.  In `HighestScorerProcessor.process_week` the surrounding
handler catches it, so the week's result is exactly the result of the
matchups BEFORE the offending one: in particular it is None (halting the
league without marking the week) only when no positive-scoring starter
was seen earlier; a positive scorer accumulated before the bad matchup
is returned as the week's record.  The standalone src/matchups.py has no
handler on that path: the IndexError propagates. -/
theorem claim10_amended_misalignment (rs : List Roster) (us : List SleeperUser)
    (ps : List (String × Player)) (pre post : List Matchup) (m : Matchup)
    (hpre : ∀ m2 ∈ pre, starterMisaligned m2 = false)
    (hm : starterMisaligned m = true) :
    hsProcessWeek (some (pre ++ m :: post)) (some rs) (some us) (some ps) =
      hsProcessWeek (some pre) (some rs) (some us) (some ps) ∧
    (hsProcessWeek (some pre) (some rs) (some us) (some ps) = Except.ok none →
      hsProcessWeek (some (pre ++ m :: post)) (some rs) (some us) (some ps) =
        Except.ok none) ∧
    ((rs.any fun r => r.owner_id.isNone) = false →
      muProcessWeek (some (pre ++ m :: post)) (some rs) (some us) (some ps) =
        Except.error "IndexError") := by
  have h1 : hsProcessWeek (some (pre ++ m :: post)) (some rs) (some us) (some ps) =
      hsProcessWeek (some pre) (some rs) (some us) (some ps) := by
    unfold hsProcessWeek
    dsimp only
    by_cases hro : (rs.any fun r => r.owner_id.isNone) = true
    · rw [if_pos hro, if_pos hro]
    · rw [if_neg hro, if_neg hro]
      rw [hsLoop_truncates _ _ _ m post hm pre hpre none]
  refine ⟨h1, ?_, ?_⟩
  · intro h2
    rw [h1]
    exact h2
  · intro hro
    unfold muProcessWeek
    dsimp only
    rw [if_neg (by rw [hro]; exact Bool.false_ne_true)]
    exact muLoop_error _ _ _ m post hm pre hpre none

/-- A matchup whose starters list is longer than starters_points: index
1 of starters has no aligned points entry. -/
def mBad : Matchup :=
  { roster_id := 2, matchup_id := 1, points := 0, starters := ["p1", "p2"],
    starters_points := [3] }

/-- C10 counterexample: the week [mGood, mBad] contains a matchup with
misaligned starters, yet `process_week` does NOT yield "no highest
scorer": the positive scorer accumulated from mGood before the caught
IndexError is returned as the week's record, refuting the claim that
every such week returns None. -/
theorem claim10_counterexample :
    starterMisaligned mBad = true ∧
    hsProcessWeek (some [mGood, mBad]) (some ceRosters) (some ceUsers)
      (some cePlayers) = Except.ok (some ce2Record) := by
  refine ⟨by decide, by decide⟩

/-- Witness for the amended C10: with the bad matchup first, main.py's
process_week degrades to the empty-prefix result (None, halting the
league), while matchups.py propagates IndexError. -/
theorem claim10_witness :
    hsProcessWeek (some ([] ++ mBad :: [])) (some ceRosters) (some ceUsers)
      (some cePlayers) =
      hsProcessWeek (some []) (some ceRosters) (some ceUsers) (some cePlayers) ∧
    hsProcessWeek (some ([] ++ mBad :: [])) (some ceRosters) (some ceUsers)
      (some cePlayers) = Except.ok none ∧
    muProcessWeek (some ([] ++ mBad :: [])) (some ceRosters) (some ceUsers)
      (some cePlayers) = Except.error "IndexError" := by
  have h := claim10_amended_misalignment ceRosters ceUsers cePlayers [] [] mBad
    (by intro m2 hm2; cases hm2) (by decide)
  exact ⟨h.1, h.2.1 (by decide), h.2.2 (by decide)⟩
